import Mathlib

/-!
Verification of the Jool NAT64 BIB/session database (module/nat64/bib/db.c)
against its natural-language specification.

The development is a shallow embedding of db.c:

* The two red-black BIB indices (tree6, tree4) index the same set of
  entries, so they are modelled as a single list of tabled BIB records;
  lookups by v6 key and by v4 key are linear searches of that list.
* Each expirer doubly-linked list (Established, Transitory, SYN4) is a
  Lean list of session records, in list order; a session record carries
  the src6 key of its owning BIB entry (the C session->bib back pointer).
  The per-BIB session tree is the sub-collection of sessions carrying
  that BIB's key; a session is keyed inside its BIB by dst4, exactly as
  the C comparison function compare_dst4 does.
* Machine counters: pkt_count is a C int, modelled as Int;
  session_count is a u64 kept far from overflow, modelled as Int.
* jiffies is passed in explicitly as a Nat parameter named now.
* Memory allocation (wkmem caches) is treated as infallible: the ENOMEM
  branches of db.c are dropped from the model, since no claim concerns
  allocator failure.
* The mask_domain iterator and the pktqueue module are external to the
  provided source; they are modelled from the specification (see the
  doc comments on MaskDomain, pktqueue_find, pktqueue_add, pktqueue_rm).
-/

/-- IPv4 transport address (struct ipv4_transport_addr): l3 abstracts the
32-bit address, l4 is the port. -/
structure Addr4 where
  l3 : Nat
  l4 : Nat
deriving DecidableEq, Repr

/-- IPv6 transport address (struct ipv6_transport_addr). -/
structure Addr6 where
  l3 : Nat
  l4 : Nat
deriving DecidableEq, Repr

/-- l4_protocol. -/
inductive L4Proto where
  | tcp
  | udp
  | icmp
deriving DecidableEq, Repr

/-- tcp_state (the states of the TCP session state machine). -/
inductive TcpState where
  | ESTABLISHED
  | V6_INIT
  | V4_INIT
  | V6_FIN_RCV
  | V4_FIN_RCV
  | V4_FIN_V6_FIN_RCV
  | TRANS
deriving DecidableEq, Repr

/-- session_timer_type: which of the three expirer lists a session is
attached to. -/
inductive TimerType where
  | est
  | trans
  | syn4
deriving DecidableEq, Repr

/-- The statistics counters (JOOL_MIB_...) incremented by the error paths
modelled here. -/
inductive Stat where
  | POOL4_EXHAUSTED
  | SO1_STORED_PKT
  | SO1_EXISTS
  | SO1_FULL
  | SO2_STORED_PKT
  | SO2_FULL
  | ADF
  | NO_BIB
  | EXTERNAL_SYN_PROHIBITED
  | TCP_SM
deriving DecidableEq, Repr

/-- Error codes (negated errno values as returned by db.c). -/
def ESRCH : Int := -3
def EINVAL : Int := -22
def ENOENT : Int := -2
def EEXIST : Int := -17
def EPERM : Int := -1
def ENOSPC : Int := -28
def ESTOLEN : Int := -0xbeef

/-- struct tabled_bib: identity of a BIB entry. Its two rb_node hooks and
its session sub-tree are represented by membership in BibTable.bibs and by
the sessions carrying src6 as their bibKey. -/
structure TabledBib where
  src6 : Addr6
  src4 : Addr4
  proto : L4Proto
  is_static : Bool
deriving DecidableEq, Repr

/-- struct tabled_session. bibKey is the src6 of the owning BIB entry
(the session->bib back pointer); stored tells whether a type-2 packet is
attached (the sk_buff pointer abstracted to a flag). update_time is in
jiffies. The expirer field of the C struct is represented by which
expirer list of the table the record sits in. -/
structure Session where
  bibKey : Addr6
  dst6 : Addr6
  dst4 : Addr4
  tcpState : TcpState
  update_time : Nat
  stored : Bool
deriving DecidableEq, Repr

/-- Modelled from the spec: a packet-queue node of the pktqueue module
(whose source is not part of the provided excerpt) holds the v4 SYN's
addresses: (src6 unknown, dst6, src4, dst4, raw packet). The raw packet
is abstracted away. -/
structure PktNode where
  dst6 : Addr6
  src4 : Addr4
  dst4 : Addr4
deriving DecidableEq, Repr

/-- Modelled from the spec: mask_domain, the caller-owned iterator over
candidate v4 source transport addresses, is an external collaborator of
db.c. It is modelled as the list of candidates it yields, plus its
mask_domain_is_dynamic flag; mask_domain_matches is membership in the
candidate list. -/
structure MaskDomain where
  candidates : List Addr4
  dynamic : Bool
deriving DecidableEq, Repr

/-- The configuration fields of globals_bib read by the modelled code. -/
structure GlobalsBib where
  drop_by_addr : Bool
  drop_external_tcp : Bool
  max_stored_pkts : Int
deriving DecidableEq, Repr

/-- struct bib_table: one per-protocol session table. The two rb trees
share their entries, hence one list bibs. The three expirer lists hold
the session records themselves, in list order (head = oldest). -/
structure BibTable where
  bibs : List TabledBib
  estList : List Session
  transList : List Session
  syn4List : List Session
  session_count : Int
  pkt_count : Int
  pkt_queue : List PktNode
deriving DecidableEq, Repr

/-- A v6-side 5-tuple as consumed by bib_add6 (src and dst transport
addresses plus protocol; the l3 protocol is fixed to IPv6). -/
structure Tuple6 where
  src6 : Addr6
  dst6 : Addr6
  proto : L4Proto
deriving DecidableEq, Repr

/-- A v4-side 5-tuple as consumed by bib_add4. -/
structure Tuple4 where
  src4 : Addr4
  dst4 : Addr4
  proto : L4Proto
deriving DecidableEq, Repr

/-- All sessions of a table, in expirer-list order (Established, then
Transitory, then SYN4). -/
def BibTable.allSessions (t : BibTable) : List Session :=
  t.estList ++ t.transList ++ t.syn4List

/-- find_bib6: lookup in tree6 by src6 (rbtree_find with compare_src6). -/
def findBib6 : List TabledBib → Addr6 → Option TabledBib
  | [], _ => none
  | b :: rest, a => if b.src6 = a then some b else findBib6 rest a

/-- find_bib4: lookup in tree4 by src4 (rbtree_find with compare_src4). -/
def findBib4 : List TabledBib → Addr4 → Option TabledBib
  | [], _ => none
  | b :: rest, a => if b.src4 = a then some b else findBib4 rest a

/-- rb_erase of a BIB entry, by its (unique) v6 key: removes the first
entry with that key. -/
def eraseBibKey : List TabledBib → Addr6 → List TabledBib
  | [], _ => []
  | b :: rest, k => if b.src6 = k then rest else b :: eraseBibKey rest k

/-- The session-collision search of find_session_slot: inside BIB @k's
session tree, find the session whose dst4 equals d (compare_dst4). -/
def findSessList : List Session → Addr6 → Addr4 → Option Session
  | [], _, _ => none
  | s :: rest, k, d =>
      if s.bibKey = k ∧ s.dst4 = d then some s else findSessList rest k d

def BibTable.findSession (t : BibTable) (k : Addr6) (d : Addr4) : Option Session :=
  findSessList t.allSessions k d

/-- The @allow side effect of find_session_slot: true when some session of
BIB @k has the same dst4 IPv4 address (l3 only) as d. Used by
address-dependent filtering. -/
def BibTable.adfAllow (t : BibTable) (k : Addr6) (d : Addr4) : Bool :=
  t.allSessions.any (fun s => decide (s.bibKey = k ∧ s.dst4.l3 = d.l3))

/-- list_del + rb_erase of one session, identified by its key pair
(owning BIB's src6, dst4): removes the first matching record. -/
def eraseSessKey : List Session → Addr6 → Addr4 → List Session
  | [], _, _ => []
  | s :: rest, k, d =>
      if s.bibKey = k ∧ s.dst4 = d then rest else s :: eraseSessKey rest k d

/-- Removal of every session belonging to BIB @k (rbtree_foreach in
detach_sessions iterates the whole sub-tree). -/
def dropKey (k : Addr6) (l : List Session) : List Session :=
  l.filter (fun s => decide (s.bibKey ≠ k))

/-- In-place field update of the (unique) session with the given key pair;
models writes through the C session pointer. -/
def updateSessList (f : Session → Session) :
    List Session → Addr6 → Addr4 → List Session
  | [], _, _ => []
  | s :: rest, k, d =>
      if s.bibKey = k ∧ s.dst4 = d then f s :: rest
      else s :: updateSessList f rest k d

/-- Erase a session (by key pair) from whichever expirer list holds it.
The C list_del works on the node itself; under the representation
invariant the key pair occurs in at most one list. -/
def BibTable.eraseSess (t : BibTable) (k : Addr6) (d : Addr4) : BibTable :=
  { t with
    estList := eraseSessKey t.estList k d
    transList := eraseSessKey t.transList k d
    syn4List := eraseSessKey t.syn4List k d }

/-- Apply an in-place update to the session with the given key pair. -/
def BibTable.updateSess (t : BibTable) (k : Addr6) (d : Addr4)
    (f : Session → Session) : BibTable :=
  { t with
    estList := updateSessList f t.estList k d
    transList := updateSessList f t.transList k d
    syn4List := updateSessList f t.syn4List k d }

/-- The expirer list of the given timer. -/
def BibTable.timerList (t : BibTable) : TimerType → List Session
  | .est => t.estList
  | .trans => t.transList
  | .syn4 => t.syn4List

/-- list_add_tail onto the chosen expirer list. -/
def BibTable.addTail (t : BibTable) (s : Session) : TimerType → BibTable
  | .est => { t with estList := t.estList ++ [s] }
  | .trans => { t with transList := t.transList ++ [s] }
  | .syn4 => { t with syn4List := t.syn4List ++ [s] }

/-- attach_timer: stamp update_time with jiffies and hang the session at
the tail of the expirer's list. -/
def attach_timer (now : Nat) (t : BibTable) (s : Session)
    (timer : TimerType) : BibTable :=
  t.addTail { s with update_time := now } timer

/-- handle_fate_timer: refresh update_time to jiffies, move the session's
list hook to the tail of the (possibly new) expirer list. -/
def handle_fate_timer (now : Nat) (t : BibTable) (s : Session)
    (timer : TimerType) : BibTable :=
  (t.eraseSess s.bibKey s.dst4).addTail { s with update_time := now } timer

/-- session_fate: the decision returned by a collision callback. -/
inductive Fate where
  | timer_est
  | timer_trans
  | probe
  | rm
  | preserve
  | drop
  | timer_slow
deriving DecidableEq, Repr

/-- The writable part of the session_entry copy handed to a collision
callback (decide_fate copies these fields back into the tabled session),
together with the returned fate. timer_type is consumed by the
timer_slow fate. -/
structure CbOut where
  fate : Fate
  tcpState : TcpState
  update_time : Nat
  has_stored : Bool
  timer_type : TimerType
deriving DecidableEq, Repr

/-- The tail-to-head scan of queue_unsorted_session, phrased on the
reversed list (head of the argument = tail of the expirer list): walk
until the first entry strictly older than the session and place the
session right before it (right after it in the unreversed list). -/
def insRev (s : Session) : List Session → List Session
  | [] => [s]
  | x :: xs =>
      if x.update_time < s.update_time then s :: x :: xs else x :: insRev s xs

/-- The in-order insertion performed by queue_unsorted_session. -/
def orderedInsert (s : Session) (l : List Session) : List Session :=
  (insRev s l.reverse).reverse

/-- queue_unsorted_session: pick the expirer named by timer_type, and
insert the session into it preserving update_time order; with
remove_first the session is first unlinked from its current list. -/
def queue_unsorted_session (t : BibTable) (s : Session)
    (timer : TimerType) (remove_first : Bool) : BibTable :=
  let t1 := if remove_first then t.eraseSess s.bibKey s.dst4 else t
  match timer with
  | .est => { t1 with estList := orderedInsert s t1.estList }
  | .trans => { t1 with transList := orderedInsert s t1.transList }
  | .syn4 => { t1 with syn4List := orderedInsert s t1.syn4List }

/-- kill_stored_pkt: drop the session's stored packet, if any, and
decrement the table's packet count. Returns the updated table and the
updated session record. -/
def kill_stored (t : BibTable) (s : Session) : BibTable × Session :=
  if s.stored then
    ({ t.updateSess s.bibKey s.dst4 (fun u => { u with stored := false }) with
        pkt_count := t.pkt_count - 1 },
      { s with stored := false })
  else (t, s)

/-- All sessions belonging to BIB entry @k (its session sub-tree). -/
def sessionsOfKey (t : BibTable) (k : Addr6) : List Session :=
  t.allSessions.filter (fun s => decide (s.bibKey = k))

/-- rm: remove the session (staging its stored packet as an ICMP error,
which drops the packet count); when the owning BIB entry is non-static
and just lost its last session, remove it from both trees too. -/
def rm (t : BibTable) (s : Session) : BibTable :=
  let t1 := (kill_stored t s).1
  let t2 := t1.eraseSess s.bibKey s.dst4
  let t3 := { t2 with session_count := t2.session_count - 1 }
  match findBib6 t3.bibs s.bibKey with
  | none => t3
  | some bib =>
      if ¬ bib.is_static ∧ sessionsOfKey t3 s.bibKey = [] then
        { t3 with bibs := eraseBibKey t3.bibs bib.src6 }
      else t3

/-- decide_fate: run the collision callback on a copy of the session,
copy the tweakable fields back, then apply the returned fate. Returns
the table, the error code (-EINVAL for FATE_DROP, else 0) and the final
field values of the session record (which may no longer be tabled, for
FATE_RM). The state effect of handle_probe is that of kill_stored_pkt:
the stored packet leaves the table (staged on the probe list) and the
packet count drops. -/
def decide_fate (now : Nat) (cb : Option (Session → CbOut)) (t : BibTable)
    (s : Session) : BibTable × Int × Session :=
  match cb with
  | none => (t, 0, s)
  | some cb =>
    let out := cb s
    let s1 := { s with tcpState := out.tcpState, update_time := out.update_time }
    let t1 := t.updateSess s.bibKey s.dst4
        (fun u => { u with tcpState := out.tcpState, update_time := out.update_time })
    let ks := if ¬ out.has_stored then kill_stored t1 s1 else (t1, s1)
    let t2 := ks.1
    let s2 := ks.2
    match out.fate with
    | .timer_est => (handle_fate_timer now t2 s2 .est, 0, { s2 with update_time := now })
    | .probe =>
        let ks3 := kill_stored t2 s2
        (handle_fate_timer now ks3.1 ks3.2 .trans, 0, { ks3.2 with update_time := now })
    | .timer_trans => (handle_fate_timer now t2 s2 .trans, 0, { s2 with update_time := now })
    | .rm => (rm t2 s2, 0, s2)
    | .preserve => (t2, 0, s2)
    | .drop => (t2, EINVAL, s2)
    | .timer_slow => (queue_unsorted_session t2 s2 out.timer_type true, 0, s2)

/-- Modelled from the spec: the matching test of pktqueue_find — the node
answers the given dst6, and its src4 is covered by some mask candidate
(no mask filter when the domain is absent). -/
def pktMatches (dst6 : Addr6) (masks : Option MaskDomain) (n : PktNode) : Bool :=
  decide (n.dst6 = dst6) &&
    (match masks with
     | none => true
     | some m => decide (n.src4 ∈ m.candidates))

/-- Modelled from the spec: pktqueue_find returns (detaching it from the
queue) the first node matching (dst6, masks); the pkt-queue module's
source is not part of the provided excerpt. -/
def pktqueue_find (q : List PktNode) (dst6 : Addr6)
    (masks : Option MaskDomain) : Option (PktNode × List PktNode) :=
  match q with
  | [] => none
  | n :: rest =>
      if pktMatches dst6 masks n then some (n, rest)
      else
        match pktqueue_find rest dst6 masks with
        | none => none
        | some (x, rest') => some (x, n :: rest')

/-- Modelled from the spec: pktqueue_add stores the packet as a type-1
node. With too_many it reports no-space without storing; a node with the
same addresses already queued reports already-exists; otherwise the
packet is stolen into a new node at the tail. -/
def pktqueue_add (q : List PktNode) (n : PktNode) (too_many : Bool) :
    List PktNode × Int :=
  if too_many then (q, ENOSPC)
  else if q.any (fun x => decide (x = n)) then (q, EEXIST)
  else (q ++ [n], ESTOLEN)

/-- Modelled from the spec: pktqueue_rm evicts the nodes whose src4
collides with a newly added static BIB entry's v4 transport address. -/
def pktqueue_rm (q : List PktNode) (a : Addr4) : List PktNode :=
  q.filter (fun n => decide (n.src4 ≠ a))

/-- find_available_mask, by its own pseudocode comment: walk the mask
candidates and return the first one not taken by an existing BIB entry
of the table; report failure (ENOENT, here none) when every candidate is
taken. The consecutive-successor shortcut try_next only avoids re-walking
the v4 tree when the iterator steps by one; it is modelled by its
documented effect (the occupancy test against the v4 index). -/
def find_available_mask (bibs : List TabledBib) : List Addr4 → Option Addr4
  | [] => none
  | m :: rest =>
      match findBib4 bibs m with
      | none => some m
      | some _ => find_available_mask bibs rest

/-- issue216_needed: the found BIB entry's v4 address is no longer
covered by the (dynamic) mask set. -/
def issue216_needed (masks : Option MaskDomain) (oldBib : TabledBib) : Bool :=
  match masks with
  | none => false
  | some m => m.dynamic && !(decide (oldBib.src4 ∈ m.candidates))

/-- detach_bib: unlink a BIB entry from both trees and all its sessions
from their expirer lists, adjusting session_count and (for stored
type-2 packets) pkt_count. The unlinked material is then freed outside
the lock (commit_delete_list / release_bib_entry), i.e. it disappears
from the state. -/
def detach_bib (t : BibTable) (b : TabledBib) : BibTable :=
  let detached := sessionsOfKey t b.src6
  { bibs := eraseBibKey t.bibs b.src6
    estList := dropKey b.src6 t.estList
    transList := dropKey b.src6 t.transList
    syn4List := dropKey b.src6 t.syn4List
    session_count := t.session_count - detached.length
    pkt_count := t.pkt_count - (detached.filter (fun s => s.stored)).length
    pkt_queue := t.pkt_queue }

/-- upgrade_pktqueue_session: on a TCP miss of the main database, consult
the packet queue for a Simultaneous-Open match of the session's dst6.
On a match the node is consumed (packet count drops) and, if a mask
domain is present and the double tree-slot sanity check passes, the node
is promoted into a live BIB entry (src4 taken from the stored node) plus
a V4_INIT session attached to the syn4 expirer. Returns the updated
table and the promoted pair on success; none reports -ESRCH (or the
trainwreck -EINVAL), upon which the caller falls through to allocating a
fresh mask. -/
def upgrade_pktqueue_session (now : Nat) (t : BibTable)
    (masks : Option MaskDomain) (src6 : Addr6) (proto : L4Proto)
    (dst6 : Addr6) : BibTable × Option (TabledBib × Session) :=
  if proto ≠ .tcp then (t, none)
  else
    match pktqueue_find t.pkt_queue dst6 masks with
    | none => (t, none)
    | some (sos, q') =>
      let t1 := { t with pkt_queue := q', pkt_count := t.pkt_count - 1 }
      match masks with
      | none => (t1, none)
      | some _ =>
        match findBib6 t1.bibs src6, findBib4 t1.bibs sos.src4 with
        | none, none =>
          let bib : TabledBib :=
            { src6 := src6, src4 := sos.src4, proto := .tcp, is_static := false }
          let sess : Session :=
            { bibKey := src6, dst6 := sos.dst6, dst4 := sos.dst4,
              tcpState := .V4_INIT, update_time := now, stored := false }
          let t2 := { t1 with bibs := t1.bibs ++ [bib] }
          (attach_timer now t2 sess .syn4, some (bib, sess))
        | _, _ => (t1, none)

/-- The ICMP patching of find_bib_session6: in a 3-tuple, the session's
dst4 port aliases the BIB entry's src4 port. -/
def patchDst4 (proto : L4Proto) (bibSrc4l4 : Nat) (d : Addr4) : Addr4 :=
  if proto = .icmp then { d with l4 := bibSrc4l4 } else d

/-- The out parameters of find_bib_session6 (struct bib_add6_args after
the call): the table (changed only by Issue #216 detaching or by a
Simultaneous-Open promotion), the error if any, the collision pair
(old), and the candidate pair (new, with src4 and dst4 now filled in). -/
structure FBS6Out where
  table : BibTable
  error : Option (Int × Stat)
  oldBib : Option TabledBib
  oldSession : Option Session
  newBib : TabledBib
  newSession : Session
deriving DecidableEq, Repr

/-- The create-new-BIB-and-session tail of find_bib_session6: allocate a
v4 mask for the new BIB entry (failing with POOL4_EXHAUSTED when the
domain is exhausted), then patch the ICMP port alias and set up the
session slot. The callers of find_bib_session6 never pass an absent mask
domain (the function's comment: masks can no longer be NULL); absence is
mapped to the same exhaustion failure. -/
def maskPath (t : BibTable) (masks : Option MaskDomain)
    (newBib : TabledBib) (newSess : Session) : FBS6Out :=
  match masks with
  | none =>
      { table := t, error := some (ENOENT, .POOL4_EXHAUSTED),
        oldBib := none, oldSession := none,
        newBib := newBib, newSession := newSess }
  | some m =>
      match find_available_mask t.bibs m.candidates with
      | none =>
          { table := t, error := some (ENOENT, .POOL4_EXHAUSTED),
            oldBib := none, oldSession := none,
            newBib := newBib, newSession := newSess }
      | some src4 =>
          let bib := { newBib with src4 := src4 }
          { table := t, error := none, oldBib := none, oldSession := none,
            newBib := bib,
            newSession :=
              { newSess with dst4 := patchDst4 bib.proto src4.l4 newSess.dst4 } }

/-- find_bib_session6: the combined find-or-insert preparation of the
v6 path, under one lock. -/
def find_bib_session6 (now : Nat) (t : BibTable) (masks : Option MaskDomain)
    (newBib : TabledBib) (newSess : Session) : FBS6Out :=
  match findBib6 t.bibs newBib.src6 with
  | some oldBib =>
      if issue216_needed masks oldBib then
        maskPath (detach_bib t oldBib) masks newBib newSess
      else
        let sess :=
          { newSess with dst4 := patchDst4 newBib.proto oldBib.src4.l4 newSess.dst4 }
        { table := t, error := none, oldBib := some oldBib,
          oldSession := t.findSession oldBib.src6 sess.dst4,
          newBib := newBib, newSession := sess }
  | none =>
      match upgrade_pktqueue_session now t masks newBib.src6 newBib.proto
          newSess.dst6 with
      | (t1, some (bib, sess)) =>
          { table := t1, error := none, oldBib := some bib,
            oldSession := some sess, newBib := newBib, newSession := newSess }
      | (t1, none) => maskPath t1 masks newBib newSess

/-- struct bib_entry: the public identity of a BIB entry. -/
structure BibEntry where
  ipv6 : Addr6
  ipv4 : Addr4
  l4_proto : L4Proto
deriving DecidableEq, Repr

/-- The session_entry snapshot produced by tstose/tstobs: a copy of the
canonical (BIB, session) pair handed back to the translator. -/
structure BibSessionSnap where
  src6 : Addr6
  src4 : Addr4
  dst6 : Addr6
  dst4 : Addr4
  proto : L4Proto
  tcpState : TcpState
  update_time : Nat
deriving DecidableEq, Repr

/-- tstobs: snapshot a tabled session through its owning BIB entry. -/
def tstobsSnap (b : TabledBib) (s : Session) : BibSessionSnap :=
  { src6 := b.src6, src4 := b.src4, dst6 := s.dst6, dst4 := s.dst4,
    proto := b.proto, tcpState := s.tcpState, update_time := s.update_time }

/-- The bib_session out parameter: either only the BIB half is set
(tbtobs) or the full pair is (tstobs). -/
inductive OutEntry where
  | bibOnly (b : TabledBib)
  | full (snap : BibSessionSnap)
deriving DecidableEq, Repr

/-- Result of an add operation: the table after the critical section,
the returned error code, the stats counter bumped on failure, and the
bib_session out parameter. -/
structure AddResult where
  table : BibTable
  code : Int
  stat : Option Stat
  result : Option OutEntry
deriving DecidableEq, Repr

/-- bib_add6: the v6→v4 find-or-insert (ESTABLISHED desired state, the
Established expirer). The candidate pair is pre-built from the tuple
(create_bib_session6: src4 and the owner back pointer deliberately left
uninitialized, here zeroed). -/
def bib_add6 (now : Nat) (t : BibTable) (masks : Option MaskDomain)
    (tup : Tuple6) (dst4 : Addr4) : AddResult :=
  let newBib : TabledBib :=
    { src6 := tup.src6, src4 := ⟨0, 0⟩, proto := tup.proto, is_static := false }
  let newSess : Session :=
    { bibKey := ⟨0, 0⟩, dst6 := tup.dst6, dst4 := dst4,
      tcpState := .ESTABLISHED, update_time := 0, stored := false }
  let out := find_bib_session6 now t masks newBib newSess
  match out.error with
  | some e => { table := out.table, code := e.1, stat := some e.2, result := none }
  | none =>
    match out.oldSession with
    | some s =>
        let t' := handle_fate_timer now out.table s .est
        let b := out.oldBib.getD out.newBib
        { table := t', code := 0, stat := none,
          result := some (.full (tstobsSnap b { s with update_time := now })) }
    | none =>
        let owner := out.oldBib.getD out.newBib
        let sess := { out.newSession with bibKey := owner.src6 }
        let t1 := { out.table with session_count := out.table.session_count + 1 }
        let t2 := attach_timer now t1 sess .est
        let t3 :=
          if out.oldBib.isNone then { t2 with bibs := t2.bibs ++ [out.newBib] }
          else t2
        { table := t3, code := 0, stat := none,
          result := some (.full (tstobsSnap owner { sess with update_time := now })) }

/-- bib_add4: the symmetric v4→v6 path. A missing BIB entry is the
no-such-entry failure (NO_BIB); with drop_by_addr, a v4 source that no
session of the BIB entry has answered yet is the address-dependent
filtering failure (ADF). -/
def bib_add4 (g : GlobalsBib) (now : Nat) (t : BibTable) (tup : Tuple4)
    (dst6 : Addr6) : AddResult :=
  let new : Session :=
    { bibKey := ⟨0, 0⟩, dst6 := dst6, dst4 := tup.src4,
      tcpState := .ESTABLISHED, update_time := 0, stored := false }
  match findBib4 t.bibs tup.dst4 with
  | none => { table := t, code := ESRCH, stat := some .NO_BIB, result := none }
  | some bib =>
    match t.findSession bib.src6 new.dst4 with
    | some s =>
        let t' := handle_fate_timer now t s .est
        { table := t', code := 0, stat := none,
          result := some (.full (tstobsSnap bib { s with update_time := now })) }
    | none =>
        if g.drop_by_addr && !(t.adfAllow bib.src6 new.dst4) then
          { table := t, code := EPERM, stat := some .ADF, result := none }
        else
          let sess := { new with bibKey := bib.src6 }
          let t1 := { t with session_count := t.session_count + 1 }
          let t2 := attach_timer now t1 sess .est
          { table := t2, code := 0, stat := none,
            result := some (.full (tstobsSnap bib { sess with update_time := now })) }

/-- bib_add_tcp4: the TCP v4→v6 path. An existing session runs the
collision callback; a sessionless non-SYN answers from the BIB alone or
fails NO_BIB; drop_external_tcp rejects external SYNs; a SYN with no BIB
entry is parked in the packet queue as type 1 (unless the stored-packet
budget is full: SO1_FULL, or a node already exists: SO1_EXISTS); a SYN
with a BIB entry under drop_by_addr parks the packet as type 2 on a new
V4_INIT session on the syn4 expirer (budget full: SO2_FULL); otherwise a
plain V4_INIT session goes on the transitory expirer. -/
def bib_add_tcp4 (g : GlobalsBib) (now : Nat) (t : BibTable) (tup : Tuple4)
    (dst6 : Addr6) (syn : Bool) (cb : Option (Session → CbOut)) : AddResult :=
  let new : Session :=
    { bibKey := ⟨0, 0⟩, dst6 := dst6, dst4 := tup.src4,
      tcpState := .V4_INIT, update_time := 0, stored := false }
  let oldBib := findBib4 t.bibs tup.dst4
  let oldSession :=
    match oldBib with
    | some b => t.findSession b.src6 new.dst4
    | none => none
  match oldSession with
  | some s =>
      let (t', err, s') := decide_fate now cb t s
      if err = 0 then
        { table := t', code := 0, stat := none,
          result := some (.full (tstobsSnap (oldBib.getD ⟨⟨0,0⟩,⟨0,0⟩,.tcp,false⟩) s')) }
      else { table := t', code := err, stat := some .TCP_SM, result := none }
  | none =>
    if !syn then
      match oldBib with
      | some b => { table := t, code := 0, stat := none, result := some (.bibOnly b) }
      | none => { table := t, code := EINVAL, stat := some .NO_BIB, result := none }
    else if g.drop_external_tcp then
      { table := t, code := EPERM, stat := some .EXTERNAL_SYN_PROHIBITED, result := none }
    else
      match oldBib with
      | none =>
          let too_many := decide (g.max_stored_pkts ≤ t.pkt_count)
          let qe := pktqueue_add t.pkt_queue ⟨dst6, tup.src4, tup.dst4⟩ too_many
          if qe.2 = ESTOLEN then
            { table := { t with pkt_queue := qe.1, pkt_count := t.pkt_count + 1 },
              code := ESTOLEN, stat := some .SO1_STORED_PKT, result := none }
          else if qe.2 = EEXIST then
            { table := t, code := EEXIST, stat := some .SO1_EXISTS, result := none }
          else
            { table := t, code := EINVAL, stat := some .SO1_FULL, result := none }
      | some b =>
          if g.drop_by_addr then
            if g.max_stored_pkts ≤ t.pkt_count then
              { table := t, code := EINVAL, stat := some .SO2_FULL, result := none }
            else
              let sess := { new with bibKey := b.src6, stored := true }
              let t1 := { t with session_count := t.session_count + 1,
                                 pkt_count := t.pkt_count + 1 }
              let t2 := attach_timer now t1 sess .syn4
              { table := t2, code := ESTOLEN, stat := some .SO2_STORED_PKT,
                result := some (.full (tstobsSnap b { sess with update_time := now })) }
          else
            let sess := { new with bibKey := b.src6 }
            let t1 := { t with session_count := t.session_count + 1 }
            let t2 := attach_timer now t1 sess .trans
            { table := t2, code := 0, stat := none,
              result := some (.full (tstobsSnap b { sess with update_time := now })) }

/-- bib2tabled: an administrator-supplied entry is tabled as static. -/
def bib2tabled (e : BibEntry) : TabledBib :=
  { src6 := e.ipv6, src4 := e.ipv4, proto := e.l4_proto, is_static := true }

/-- The in-place upgrade of bib_add_static's v6-collision-same-v4 case. -/
def upgradeKey (l : List TabledBib) (k : Addr6) : List TabledBib :=
  l.map (fun b => if b.src6 = k then { b with is_static := true } else b)

/-- Result of bib_add_static: the table, the error code, and the old out
parameter reporting the colliding entry on already-exists. -/
structure StaticResult where
  table : BibTable
  code : Int
  old : Option TabledBib
deriving DecidableEq, Repr

/-- bib_add_static: insert an administrator-supplied mapping. A v6
collision with the same v4 address upgrades the existing entry to
static; any other collision fails with already-exists, reporting the
colliding entry; otherwise the new static entry is committed to both
trees and (TCP) colliding type-1 queue nodes are evicted. -/
def bib_add_static (t : BibTable) (new : BibEntry) : StaticResult :=
  let bib := bib2tabled new
  match findBib6 t.bibs bib.src6 with
  | some coll =>
      if coll.src4 = bib.src4 then
        { table := { t with bibs := upgradeKey t.bibs bib.src6 }, code := 0, old := none }
      else { table := t, code := EEXIST, old := some coll }
  | none =>
    match findBib4 t.bibs bib.src4 with
    | some coll => { table := t, code := EEXIST, old := some coll }
    | none =>
        let t1 := { t with bibs := t.bibs ++ [bib] }
        let t2 :=
          if new.l4_proto = .tcp then
            { t1 with pkt_queue := pktqueue_rm t1.pkt_queue new.ipv4 }
          else t1
        { table := t2, code := 0, old := none }

/-- bib_find6: read-only lookup by v6 transport address. The result out
parameter is written through tbtobe only when an entry was found; the
pair returned here is (error code, result record after the call). -/
def bib_find6 (t : BibTable) (addr : Addr6) (result : BibEntry) : Int × BibEntry :=
  match findBib6 t.bibs addr with
  | some b => (0, { ipv6 := b.src6, ipv4 := b.src4, l4_proto := b.proto })
  | none => (ESRCH, result)

/-- bib_find4: read-only lookup by v4 transport address. -/
def bib_find4 (t : BibTable) (addr : Addr4) (result : BibEntry) : Int × BibEntry :=
  match findBib4 t.bibs addr with
  | some b => (0, { ipv6 := b.src6, ipv4 := b.src4, l4_proto := b.proto })
  | none => (ESRCH, result)

/-- flush_table: walk the v4 tree detaching every BIB entry (with its
sessions); the detached material is then freed outside the lock. The
type-1 packet queue is not touched. -/
def flush_table (t : BibTable) : BibTable :=
  t.bibs.foldl detach_bib t

/-- The number of stored type-2 packets attached to sessions. -/
def storedSessCount (t : BibTable) : Nat :=
  (t.allSessions.filter (fun s => s.stored)).length

/-- The total number of stored packets: type-1 queue nodes plus type-2
packets attached to sessions. The table's pkt_count field tracks this
quantity. -/
def storedTotal (t : BibTable) : Int :=
  (t.pkt_queue.length : Int) + (storedSessCount t : Int)

/-! ## Generic lemmas about the lookup and list primitives -/

theorem findBib6_some_src6 {l : List TabledBib} {a : Addr6} {b : TabledBib}
    (h : findBib6 l a = some b) : b.src6 = a := by
  induction l with
  | nil => simp [findBib6] at h
  | cons x rest ih =>
      by_cases hx : x.src6 = a
      · simp [findBib6, hx] at h
        subst h
        exact hx
      · simp [findBib6, hx] at h
        exact ih h

theorem findBib4_some_src4 {l : List TabledBib} {a : Addr4} {b : TabledBib}
    (h : findBib4 l a = some b) : b.src4 = a := by
  induction l with
  | nil => simp [findBib4] at h
  | cons x rest ih =>
      by_cases hx : x.src4 = a
      · simp [findBib4, hx] at h
        subst h
        exact hx
      · simp [findBib4, hx] at h
        exact ih h

theorem findBib6_upgradeKey (l : List TabledBib) (k : Addr6) :
    findBib6 (upgradeKey l k) k
      = (findBib6 l k).map (fun b => { b with is_static := true }) := by
  induction l with
  | nil => rfl
  | cons b rest ih =>
      by_cases h : b.src6 = k
      · simp [upgradeKey, findBib6, h]
      · simp only [upgradeKey, List.map_cons]
        rw [if_neg h]
        simp only [findBib6]
        rw [if_neg h, if_neg h]
        simpa [upgradeKey] using ih

/-! ## Claim C10 -/

/-- C10: for a transport address with no matching BIB entry, bib_find6
(resp. bib_find4) returns the no-such-entry error (-ESRCH) and leaves the
caller-supplied result record unmodified; the result record is written
(through tbtobe) exactly when a matching entry exists. -/
theorem bib_find_miss_leaves_result (t : BibTable) (a6 : Addr6) (a4 : Addr4)
    (r : BibEntry) :
    (findBib6 t.bibs a6 = none → bib_find6 t a6 r = (ESRCH, r)) ∧
    (findBib4 t.bibs a4 = none → bib_find4 t a4 r = (ESRCH, r)) ∧
    (∀ b, findBib6 t.bibs a6 = some b →
      bib_find6 t a6 r = (0, ⟨b.src6, b.src4, b.proto⟩)) ∧
    (∀ b, findBib4 t.bibs a4 = some b →
      bib_find4 t a4 r = (0, ⟨b.src6, b.src4, b.proto⟩)) := by
  refine ⟨fun h => ?_, fun h => ?_, fun b h => ?_, fun b h => ?_⟩ <;>
    simp [bib_find6, bib_find4, h]

/-- Witness for C10 at a concrete table: the miss leaves the result
record untouched, the hit overwrites it. -/
theorem bib_find_miss_leaves_result_witness :
    bib_find6 ⟨[⟨⟨1, 1⟩, ⟨2, 2⟩, .udp, false⟩], [], [], [], 0, 0, []⟩
        ⟨9, 9⟩ ⟨⟨5, 5⟩, ⟨6, 6⟩, .tcp⟩ = (ESRCH, ⟨⟨5, 5⟩, ⟨6, 6⟩, .tcp⟩) ∧
    bib_find4 ⟨[⟨⟨1, 1⟩, ⟨2, 2⟩, .udp, false⟩], [], [], [], 0, 0, []⟩
        ⟨2, 2⟩ ⟨⟨5, 5⟩, ⟨6, 6⟩, .tcp⟩ = (0, ⟨⟨1, 1⟩, ⟨2, 2⟩, .udp⟩) := by
  constructor
  · exact (bib_find_miss_leaves_result ⟨[⟨⟨1, 1⟩, ⟨2, 2⟩, .udp, false⟩], [], [], [], 0, 0, []⟩
      ⟨9, 9⟩ ⟨2, 2⟩ ⟨⟨5, 5⟩, ⟨6, 6⟩, .tcp⟩).1 (by decide)
  · exact (bib_find_miss_leaves_result ⟨[⟨⟨1, 1⟩, ⟨2, 2⟩, .udp, false⟩], [], [], [], 0, 0, []⟩
      ⟨9, 9⟩ ⟨2, 2⟩ ⟨⟨5, 5⟩, ⟨6, 6⟩, .tcp⟩).2.2.2 ⟨⟨1, 1⟩, ⟨2, 2⟩, .udp, false⟩ (by decide)

/-! ## Claim C9 -/

/-- C9: bib_add_static. A v6-key collision with the same v4 transport
address upgrades the existing entry to static in place (no insertion);
a v6 collision with a different v4 address, or a v4-key collision, fails
with already-exists, reports the colliding entry through the old out
parameter, and leaves the table untouched; a collision-free call commits
the entry, marked static, into both trees. -/
theorem bib_add_static_spec (t : BibTable) (e : BibEntry) :
    (∀ c, findBib6 t.bibs e.ipv6 = some c →
      (c.src4 = e.ipv4 →
        (bib_add_static t e).code = 0 ∧
        (bib_add_static t e).table.bibs = upgradeKey t.bibs e.ipv6 ∧
        (bib_add_static t e).table.bibs.length = t.bibs.length ∧
        findBib6 (bib_add_static t e).table.bibs e.ipv6
          = some { c with is_static := true } ∧
        (bib_add_static t e).table.estList = t.estList ∧
        (bib_add_static t e).table.transList = t.transList ∧
        (bib_add_static t e).table.syn4List = t.syn4List ∧
        (bib_add_static t e).table.pkt_queue = t.pkt_queue) ∧
      (c.src4 ≠ e.ipv4 →
        bib_add_static t e = ⟨t, EEXIST, some c⟩)) ∧
    (findBib6 t.bibs e.ipv6 = none →
      (∀ c, findBib4 t.bibs e.ipv4 = some c →
        bib_add_static t e = ⟨t, EEXIST, some c⟩) ∧
      (findBib4 t.bibs e.ipv4 = none →
        (bib_add_static t e).code = 0 ∧
        (bib_add_static t e).table.bibs = t.bibs ++ [bib2tabled e] ∧
        (bib2tabled e).is_static = true ∧
        (bib_add_static t e).table.estList = t.estList ∧
        (bib_add_static t e).table.transList = t.transList ∧
        (bib_add_static t e).table.syn4List = t.syn4List)) := by
  constructor
  · intro c hc
    constructor
    · intro h4
      have h6u : findBib6 (upgradeKey t.bibs e.ipv6) e.ipv6
          = some { c with is_static := true } := by
        rw [findBib6_upgradeKey, hc]
        rfl
      have hres : bib_add_static t e
          = ⟨{ t with bibs := upgradeKey t.bibs e.ipv6 }, 0, none⟩ := by
        simp [bib_add_static, bib2tabled, hc, h4]
      rw [hres]
      exact ⟨rfl, rfl, by simp [upgradeKey], h6u, rfl, rfl, rfl, rfl⟩
    · intro h4
      simp [bib_add_static, bib2tabled, hc, h4]
  · intro h6
    constructor
    · intro c hc
      simp [bib_add_static, bib2tabled, h6, hc]
    · intro h4
      by_cases hp : e.l4_proto = L4Proto.tcp <;>
        simp [bib_add_static, bib2tabled, h6, h4, hp]

/-- Witness for C9: the three cases at concrete tables (upgrade, v4-key
collision, collision-free insert). -/
theorem bib_add_static_spec_witness :
    (bib_add_static ⟨[⟨⟨1, 1⟩, ⟨2, 2⟩, .udp, false⟩], [], [], [], 0, 0, []⟩
        ⟨⟨1, 1⟩, ⟨2, 2⟩, .udp⟩).table.bibs
      = [⟨⟨1, 1⟩, ⟨2, 2⟩, .udp, true⟩] ∧
    bib_add_static ⟨[⟨⟨1, 1⟩, ⟨2, 2⟩, .udp, false⟩], [], [], [], 0, 0, []⟩
        ⟨⟨3, 3⟩, ⟨2, 2⟩, .udp⟩
      = ⟨⟨[⟨⟨1, 1⟩, ⟨2, 2⟩, .udp, false⟩], [], [], [], 0, 0, []⟩, EEXIST,
          some ⟨⟨1, 1⟩, ⟨2, 2⟩, .udp, false⟩⟩ ∧
    (bib_add_static ⟨[⟨⟨1, 1⟩, ⟨2, 2⟩, .udp, false⟩], [], [], [], 0, 0, []⟩
        ⟨⟨3, 3⟩, ⟨4, 4⟩, .udp⟩).table.bibs
      = [⟨⟨1, 1⟩, ⟨2, 2⟩, .udp, false⟩, ⟨⟨3, 3⟩, ⟨4, 4⟩, .udp, true⟩] := by
  refine ⟨?_, ?_, ?_⟩
  · have h := (bib_add_static_spec
      ⟨[⟨⟨1, 1⟩, ⟨2, 2⟩, .udp, false⟩], [], [], [], 0, 0, []⟩
      ⟨⟨1, 1⟩, ⟨2, 2⟩, .udp⟩).1 ⟨⟨1, 1⟩, ⟨2, 2⟩, .udp, false⟩ (by decide)
    rw [(h.1 (by decide)).2.1]
    decide
  · have h := (bib_add_static_spec
      ⟨[⟨⟨1, 1⟩, ⟨2, 2⟩, .udp, false⟩], [], [], [], 0, 0, []⟩
      ⟨⟨3, 3⟩, ⟨2, 2⟩, .udp⟩).2 (by decide)
    exact h.1 ⟨⟨1, 1⟩, ⟨2, 2⟩, .udp, false⟩ (by decide)
  · have h := (bib_add_static_spec
      ⟨[⟨⟨1, 1⟩, ⟨2, 2⟩, .udp, false⟩], [], [], [], 0, 0, []⟩
      ⟨⟨3, 3⟩, ⟨4, 4⟩, .udp⟩).2 (by decide)
    rw [(h.2 (by decide)).2.1]
    decide

/-! ## Claim C7 -/

/-- C7: bib_add4 failure cases. With no BIB entry for the tuple's v4
destination the call fails with -ESRCH / stats NO_BIB and the database
is untouched. With a BIB entry, drop_by_addr enabled, no matching
session, and no session of that BIB entry sharing its dst4 IPv4 address
with the incoming v4 source, the call fails with -EPERM / stats ADF and
the database is untouched. -/
theorem bib_add4_error_cases (g : GlobalsBib) (now : Nat) (t : BibTable)
    (tup : Tuple4) (dst6 : Addr6) :
    (findBib4 t.bibs tup.dst4 = none →
      bib_add4 g now t tup dst6 = ⟨t, ESRCH, some .NO_BIB, none⟩) ∧
    (∀ b, findBib4 t.bibs tup.dst4 = some b →
      t.findSession b.src6 tup.src4 = none →
      g.drop_by_addr = true →
      t.adfAllow b.src6 tup.src4 = false →
      bib_add4 g now t tup dst6 = ⟨t, EPERM, some .ADF, none⟩) := by
  constructor
  · intro h
    simp [bib_add4, h]
  · intro b hb hs hd ha
    simp [bib_add4, hb, hs, hd, ha]

/-- Witness for C7: a concrete no-BIB miss and a concrete ADF rejection
(BIB present, one session answering a different v4 address). -/
theorem bib_add4_error_cases_witness :
    bib_add4 ⟨true, false, 10⟩ 7 ⟨[], [], [], [], 0, 0, []⟩ ⟨⟨8, 8⟩, ⟨2, 2⟩, .udp⟩ ⟨9, 9⟩
      = ⟨⟨[], [], [], [], 0, 0, []⟩, ESRCH, some .NO_BIB, none⟩ ∧
    bib_add4 ⟨true, false, 10⟩ 7
        ⟨[⟨⟨1, 1⟩, ⟨2, 2⟩, .udp, false⟩],
          [⟨⟨1, 1⟩, ⟨6, 6⟩, ⟨5, 80⟩, .ESTABLISHED, 3, false⟩], [], [], 1, 0, []⟩
        ⟨⟨8, 8⟩, ⟨2, 2⟩, .udp⟩ ⟨9, 9⟩
      = ⟨⟨[⟨⟨1, 1⟩, ⟨2, 2⟩, .udp, false⟩],
          [⟨⟨1, 1⟩, ⟨6, 6⟩, ⟨5, 80⟩, .ESTABLISHED, 3, false⟩], [], [], 1, 0, []⟩,
          EPERM, some .ADF, none⟩ := by
  constructor
  · exact (bib_add4_error_cases ⟨true, false, 10⟩ 7 ⟨[], [], [], [], 0, 0, []⟩
      ⟨⟨8, 8⟩, ⟨2, 2⟩, .udp⟩ ⟨9, 9⟩).1 (by decide)
  · exact (bib_add4_error_cases ⟨true, false, 10⟩ 7
      ⟨[⟨⟨1, 1⟩, ⟨2, 2⟩, .udp, false⟩],
        [⟨⟨1, 1⟩, ⟨6, 6⟩, ⟨5, 80⟩, .ESTABLISHED, 3, false⟩], [], [], 1, 0, []⟩
      ⟨⟨8, 8⟩, ⟨2, 2⟩, .udp⟩ ⟨9, 9⟩).2 ⟨⟨1, 1⟩, ⟨2, 2⟩, .udp, false⟩
      (by decide) (by decide) (by decide) (by decide)

/-! ## Claim C2 -/

theorem find_available_mask_none_iff (bibs : List TabledBib) (l : List Addr4) :
    find_available_mask bibs l = none ↔ ∀ c ∈ l, findBib4 bibs c ≠ none := by
  induction l with
  | nil => simp [find_available_mask]
  | cons m rest ih =>
      cases h : findBib4 bibs m with
      | none => simp [find_available_mask, h]
      | some b => simp [find_available_mask, h, ih]

/-- The pool of scenario S2: the single transport address
192.0.2.1#61001, dynamic. -/
def pool4C2 : Option MaskDomain := some ⟨[⟨0xC0000201, 61001⟩], true⟩

/-- 2001:db8::1#1000 (the l3 halves are abstract encodings). -/
def tupC2a : Tuple6 := ⟨⟨0x20010DB80001, 1000⟩, ⟨0x64FF9B05, 80⟩, .udp⟩

/-- 2001:db8::2#1000. -/
def tupC2b : Tuple6 := ⟨⟨0x20010DB80002, 1000⟩, ⟨0x64FF9B05, 80⟩, .udp⟩

/-- 2001:db8::3#1000. -/
def tupC2c : Tuple6 := ⟨⟨0x20010DB80003, 1000⟩, ⟨0x64FF9B05, 80⟩, .udp⟩

/-- 203.0.113.5#80, the translated destination. -/
def dstC2 : Addr4 := ⟨0xCB007105, 80⟩

/-- The table after the first UDP add6 of scenario S2. -/
def tableC2a : BibTable :=
  (bib_add6 10 ⟨[], [], [], [], 0, 0, []⟩ pool4C2 tupC2a dstC2).table

/-- Counterexample to C2: with pool4 = {192.0.2.1#61001}, the first UDP
add6 succeeds and takes port 61001, but the second add6 — from the
distinct v6 source 2001:db8::2#1000 — does NOT succeed with the same
port: BIB v4 keys never collide, so the only mask candidate is occupied
and the call fails with POOL4_EXHAUSTED. -/
theorem c2_counterexample :
    (bib_add6 10 ⟨[], [], [], [], 0, 0, []⟩ pool4C2 tupC2a dstC2).code = 0 ∧
    (bib_add6 10 ⟨[], [], [], [], 0, 0, []⟩ pool4C2 tupC2a dstC2).result
      = some (.full ⟨tupC2a.src6, ⟨0xC0000201, 61001⟩, tupC2a.dst6, dstC2,
          .udp, .ESTABLISHED, 10⟩) ∧
    bib_add6 11 tableC2a pool4C2 tupC2b dstC2
      = ⟨tableC2a, ENOENT, some .POOL4_EXHAUSTED, none⟩ := by
  decide

/-- C2 amended: with pool4 = {192.0.2.1#61001}, only the FIRST UDP add6
succeeds (obtaining port 61001); the second and third calls, from
distinct v6 source transport addresses, both fail with POOL4_EXHAUSTED,
because a v4 transport address is never shared between BIB entries.
In general (no existing BIB entry for the v6 source, UDP), the
pool-exhausted error with stats counter POOL4_EXHAUSTED is reported
exactly when every mask candidate is already taken by an existing BIB
entry. -/
theorem c2_amended :
    ((bib_add6 10 ⟨[], [], [], [], 0, 0, []⟩ pool4C2 tupC2a dstC2).code = 0 ∧
     (bib_add6 10 ⟨[], [], [], [], 0, 0, []⟩ pool4C2 tupC2a dstC2).result
       = some (.full ⟨tupC2a.src6, ⟨0xC0000201, 61001⟩, tupC2a.dst6, dstC2,
           .udp, .ESTABLISHED, 10⟩) ∧
     (bib_add6 11 tableC2a pool4C2 tupC2b dstC2).stat = some .POOL4_EXHAUSTED ∧
     (bib_add6 12 tableC2a pool4C2 tupC2c dstC2).stat = some .POOL4_EXHAUSTED) ∧
    (∀ (now : Nat) (t : BibTable) (m : MaskDomain) (tup : Tuple6) (dst4 : Addr4),
      tup.proto = .udp →
      findBib6 t.bibs tup.src6 = none →
      ((bib_add6 now t (some m) tup dst4).stat = some .POOL4_EXHAUSTED ↔
        ∀ c ∈ m.candidates, findBib4 t.bibs c ≠ none)) := by
  constructor
  · decide
  · intro now t m tup dst4 hp hmiss
    rw [← find_available_mask_none_iff]
    cases hfam : find_available_mask t.bibs m.candidates with
    | none =>
        simp [bib_add6, find_bib_session6, hmiss, upgrade_pktqueue_session, hp,
          maskPath, hfam]
    | some a =>
        simp [bib_add6, find_bib_session6, hmiss, upgrade_pktqueue_session, hp,
          maskPath, hfam]

/-- Witness for the general part of the amended C2, at the concrete S2
scenario: the second add6 fails with POOL4_EXHAUSTED because the only
candidate 192.0.2.1#61001 is occupied. -/
theorem c2_amended_witness :
    (bib_add6 11 tableC2a pool4C2 tupC2b dstC2).stat = some .POOL4_EXHAUSTED :=
  (c2_amended.2 11 tableC2a ⟨[⟨0xC0000201, 61001⟩], true⟩ tupC2b dstC2
    (by decide) (by decide)).mpr (by decide)

/-! ## Claim C3 -/

theorem length_filter_not_add (p : α → Bool) (l : List α) :
    (l.filter (fun a => !(p a))).length + (l.filter p).length = l.length := by
  induction l with
  | nil => rfl
  | cons a rest ih =>
      cases h : p a <;> simp [List.filter_cons, h] <;> omega

theorem dropKey_eq_filter_not (k : Addr6) (l : List Session) :
    dropKey k l = l.filter (fun s => !(decide (s.bibKey = k))) := by
  unfold dropKey
  exact List.filter_congr (fun s _ => by simp)

theorem mem_allSessions_detach {t : BibTable} {b : TabledBib} {s : Session} :
    s ∈ (detach_bib t b).allSessions ↔
      s ∈ t.allSessions ∧ ¬ s.bibKey = b.src6 := by
  simp only [detach_bib, BibTable.allSessions, dropKey, List.mem_append,
    List.mem_filter, decide_eq_true_eq]
  tauto

theorem mem_allSessions_foldl_detach :
    ∀ (l : List TabledBib) (acc : BibTable) (s : Session),
      s ∈ (l.foldl detach_bib acc).allSessions →
      s ∈ acc.allSessions ∧ ∀ b ∈ l, ¬ s.bibKey = b.src6 := by
  intro l
  induction l with
  | nil => intro acc s h; exact ⟨h, by simp⟩
  | cons b rest ih =>
      intro acc s h
      rw [List.foldl_cons] at h
      obtain ⟨h1, h2⟩ := ih (detach_bib acc b) s h
      rw [mem_allSessions_detach] at h1
      refine ⟨h1.1, ?_⟩
      intro c hc
      rw [List.mem_cons] at hc
      rcases hc with rfl | hc
      · exact h1.2
      · exact h2 c hc

theorem foldl_detach_bibs :
    ∀ (l : List TabledBib) (acc : BibTable), acc.bibs = l →
      (l.foldl detach_bib acc).bibs = [] := by
  intro l
  induction l with
  | nil => intro acc h; simpa using h
  | cons b rest ih =>
      intro acc h
      rw [List.foldl_cons]
      apply ih
      simp [detach_bib, h, eraseBibKey]

theorem detach_bib_step (t : BibTable) (b : TabledBib) :
    (detach_bib t b).allSessions.length + (sessionsOfKey t b.src6).length
        = t.allSessions.length ∧
    storedSessCount (detach_bib t b)
        + ((sessionsOfKey t b.src6).filter (fun s => s.stored)).length
        = storedSessCount t := by
  have key : ∀ (l : List Session),
      (dropKey b.src6 l).length
          + (l.filter (fun s => decide (s.bibKey = b.src6))).length
        = l.length := by
    intro l
    rw [dropKey_eq_filter_not]
    exact length_filter_not_add _ l
  have keyStored : ∀ (l : List Session),
      ((dropKey b.src6 l).filter (fun s => s.stored)).length
          + ((l.filter (fun s => decide (s.bibKey = b.src6))).filter
              (fun s => s.stored)).length
        = (l.filter (fun s => s.stored)).length := by
    intro l
    rw [dropKey_eq_filter_not]
    rw [List.filter_filter, List.filter_filter]
    have h1 : ∀ (q : Session → Bool),
        (l.filter (fun s => s.stored && q s)).length
          = ((l.filter (fun s => s.stored)).filter q).length := by
      intro q
      rw [List.filter_filter]
      apply congrArg
      exact List.filter_congr (fun s _ => by cases hs : s.stored <;> simp [hs])
    rw [h1, h1]
    exact length_filter_not_add _ _
  constructor
  · have e1 := key t.estList
    have e2 := key t.transList
    have e3 := key t.syn4List
    simp only [detach_bib, BibTable.allSessions, sessionsOfKey,
      List.filter_append, List.length_append]
    omega
  · have e1 := keyStored t.estList
    have e2 := keyStored t.transList
    have e3 := keyStored t.syn4List
    simp only [detach_bib, storedSessCount, BibTable.allSessions, sessionsOfKey,
      List.filter_append, List.length_append]
    omega

theorem foldl_detach_inv :
    ∀ (l : List TabledBib) (acc : BibTable),
      ((l.foldl detach_bib acc).session_count
          - ((l.foldl detach_bib acc).allSessions.length : Int)
        = acc.session_count - (acc.allSessions.length : Int)) ∧
      ((l.foldl detach_bib acc).pkt_count
          - (storedSessCount (l.foldl detach_bib acc) : Int)
        = acc.pkt_count - (storedSessCount acc : Int)) ∧
      (l.foldl detach_bib acc).pkt_queue = acc.pkt_queue := by
  intro l
  induction l with
  | nil => intro acc; exact ⟨rfl, rfl, rfl⟩
  | cons b rest ih =>
      intro acc
      rw [List.foldl_cons]
      obtain ⟨i1, i2, i3⟩ := ih (detach_bib acc b)
      obtain ⟨s1, s2⟩ := detach_bib_step acc b
      have c1 : (detach_bib acc b).session_count
          = acc.session_count - ((sessionsOfKey acc b.src6).length : Int) := rfl
      have c2 : (detach_bib acc b).pkt_count
          = acc.pkt_count
            - (((sessionsOfKey acc b.src6).filter (fun s => s.stored)).length : Int) := rfl
      have c3 : (detach_bib acc b).pkt_queue = acc.pkt_queue := rfl
      refine ⟨?_, ?_, i3.trans c3⟩
      · rw [i1, c1]
        omega
      · rw [i2, c2]
        omega

/-- C3 amended: after flush_table, zero BIB entries and zero sessions
remain, and every type-2 stored packet has been released (the packet
count comes down to the number of type-1 nodes) — but the type-1 packet
queue itself is NOT touched by the flush: its packets stay stored.
Hypotheses: every session belongs to a tabled BIB entry, and the two
counters are accurate. -/
theorem c3_amended (t : BibTable)
    (hown : ∀ s ∈ t.allSessions, ∃ b ∈ t.bibs, s.bibKey = b.src6)
    (hcount : t.session_count = (t.allSessions.length : Int))
    (hacct : t.pkt_count = storedTotal t) :
    (flush_table t).bibs = [] ∧
    (flush_table t).allSessions = [] ∧
    (flush_table t).session_count = 0 ∧
    (flush_table t).pkt_queue = t.pkt_queue ∧
    (flush_table t).pkt_count = (t.pkt_queue.length : Int) := by
  have hbibs : (flush_table t).bibs = [] := foldl_detach_bibs t.bibs t rfl
  have hsess : (flush_table t).allSessions = [] := by
    rw [List.eq_nil_iff_forall_not_mem]
    intro s hs
    obtain ⟨h1, h2⟩ := mem_allSessions_foldl_detach t.bibs t s hs
    obtain ⟨b, hb, hk⟩ := hown s h1
    exact h2 b hb hk
  obtain ⟨i1, i2, i3⟩ := foldl_detach_inv t.bibs t
  have hstored : storedSessCount (flush_table t) = 0 := by
    unfold storedSessCount
    rw [hsess]
    rfl
  refine ⟨hbibs, hsess, ?_, i3, ?_⟩
  · have : (flush_table t).allSessions.length = 0 := by rw [hsess]; rfl
    unfold flush_table at *
    omega
  · unfold storedTotal at hacct
    unfold flush_table at *
    omega

/-- A TCP table holding one type-1 packet in its packet queue and
nothing else. -/
def tableC3 : BibTable := ⟨[], [], [], [], 0, 1, [⟨⟨9, 9⟩, ⟨8, 8⟩, ⟨7, 7⟩⟩]⟩

/-- Counterexample to C3: flushing a TCP table with a stored type-1
packet leaves that packet in the queue — it is not released, contrary to
the claim that every previously-stored packet (type-1 as well as type-2)
is released by the flush. -/
theorem c3_counterexample :
    (flush_table tableC3).bibs = [] ∧
    (flush_table tableC3).allSessions = [] ∧
    (flush_table tableC3).pkt_queue = [⟨⟨9, 9⟩, ⟨8, 8⟩, ⟨7, 7⟩⟩] ∧
    ¬ (flush_table tableC3).pkt_queue = [] ∧
    (flush_table tableC3).pkt_count = 1 := by
  decide

/-- A TCP table with one non-static BIB entry owning one session with a
stored type-2 packet, plus one type-1 node in the queue. -/
def tableC3w : BibTable :=
  ⟨[⟨⟨1, 1⟩, ⟨2, 2⟩, .tcp, false⟩], [],
    [], [⟨⟨1, 1⟩, ⟨6, 6⟩, ⟨5, 80⟩, .V4_INIT, 3, true⟩], 1, 2,
    [⟨⟨9, 9⟩, ⟨8, 8⟩, ⟨7, 7⟩⟩]⟩

/-- Witness for the amended C3 at a concrete populated table: the flush
empties the BIB entries and sessions, releases the type-2 packet
(pkt_count 2 → 1) and keeps the type-1 queue node stored. -/
theorem c3_amended_witness :
    (flush_table tableC3w).bibs = [] ∧
    (flush_table tableC3w).allSessions = [] ∧
    (flush_table tableC3w).session_count = 0 ∧
    (flush_table tableC3w).pkt_queue = tableC3w.pkt_queue ∧
    (flush_table tableC3w).pkt_count = (tableC3w.pkt_queue.length : Int) :=
  c3_amended tableC3w (by decide) (by decide) (by decide)

/-! ## Claim C4 -/

/-- C4: on a TCP v6 call whose source has no BIB entry, if the packet
queue holds a Simultaneous-Open match for the session's dst6 compatible
with the mask set, find_bib_session6 promotes the stored node into a
live BIB + session pair: the BIB src4 is the stored node's src4 (no
fresh mask is allocated), the session state is V4_INIT attached at the
tail of the syn4 expirer, the queue node is removed and the packet count
decremented. -/
theorem c4_so_promotion (now : Nat) (t : BibTable) (m : MaskDomain)
    (newBib : TabledBib) (newSess : Session) (sos : PktNode) (q' : List PktNode)
    (hp : newBib.proto = .tcp)
    (hmiss : findBib6 t.bibs newBib.src6 = none)
    (hq : pktqueue_find t.pkt_queue newSess.dst6 (some m) = some (sos, q'))
    (hb4 : findBib4 t.bibs sos.src4 = none) :
    find_bib_session6 now t (some m) newBib newSess =
      { table :=
          { t with
            pkt_queue := q'
            pkt_count := t.pkt_count - 1
            bibs := t.bibs ++ [⟨newBib.src6, sos.src4, .tcp, false⟩]
            syn4List := t.syn4List
              ++ [⟨newBib.src6, sos.dst6, sos.dst4, .V4_INIT, now, false⟩] }
        error := none
        oldBib := some ⟨newBib.src6, sos.src4, .tcp, false⟩
        oldSession := some ⟨newBib.src6, sos.dst6, sos.dst4, .V4_INIT, now, false⟩
        newBib := newBib
        newSession := newSess } := by
  simp [find_bib_session6, hmiss, upgrade_pktqueue_session, hp, hq, hb4,
    attach_timer, BibTable.addTail]

/-- Witness for C4: a stored v4 SYN node (dst6 = 64:ff9b-encoded peer,
src4 = 192.0.2.1#61001 drawn from the masks) is promoted for the first
v6 SYN of the matching flow. -/
theorem c4_so_promotion_witness :
    find_bib_session6 30
        ⟨[], [], [], [], 0, 1, [⟨⟨0xB5, 80⟩, ⟨201, 61001⟩, ⟨7, 80⟩⟩]⟩
        (some ⟨[⟨201, 61001⟩], true⟩)
        ⟨⟨0xA1, 1000⟩, ⟨0, 0⟩, .tcp, false⟩
        ⟨⟨0, 0⟩, ⟨0xB5, 80⟩, ⟨5, 80⟩, .V6_INIT, 0, false⟩ =
      { table :=
          ⟨[⟨⟨0xA1, 1000⟩, ⟨201, 61001⟩, .tcp, false⟩], [], [],
            [⟨⟨0xA1, 1000⟩, ⟨0xB5, 80⟩, ⟨7, 80⟩, .V4_INIT, 30, false⟩], 0, 0, []⟩
        error := none
        oldBib := some ⟨⟨0xA1, 1000⟩, ⟨201, 61001⟩, .tcp, false⟩
        oldSession := some ⟨⟨0xA1, 1000⟩, ⟨0xB5, 80⟩, ⟨7, 80⟩, .V4_INIT, 30, false⟩
        newBib := ⟨⟨0xA1, 1000⟩, ⟨0, 0⟩, .tcp, false⟩
        newSession := ⟨⟨0, 0⟩, ⟨0xB5, 80⟩, ⟨5, 80⟩, .V6_INIT, 0, false⟩ } := by
  have h := c4_so_promotion 30
      ⟨[], [], [], [], 0, 1, [⟨⟨0xB5, 80⟩, ⟨201, 61001⟩, ⟨7, 80⟩⟩]⟩
      ⟨[⟨201, 61001⟩], true⟩
      ⟨⟨0xA1, 1000⟩, ⟨0, 0⟩, .tcp, false⟩
      ⟨⟨0, 0⟩, ⟨0xB5, 80⟩, ⟨5, 80⟩, .V6_INIT, 0, false⟩
      ⟨⟨0xB5, 80⟩, ⟨201, 61001⟩, ⟨7, 80⟩⟩ []
      (by decide) (by decide) (by decide) (by decide)
  rw [h]
  decide

/-! ## Claim C8 -/

theorem eraseSessKey_updateSessList (f : Session → Session)
    (hf : ∀ u, (f u).bibKey = u.bibKey ∧ (f u).dst4 = u.dst4)
    (l : List Session) (k : Addr6) (d : Addr4) :
    eraseSessKey (updateSessList f l k d) k d = eraseSessKey l k d := by
  induction l with
  | nil => rfl
  | cons s rest ih =>
      by_cases h : s.bibKey = k ∧ s.dst4 = d
      · have hfs : (f s).bibKey = k ∧ (f s).dst4 = d :=
          ⟨(hf s).1.trans h.1, (hf s).2.trans h.2⟩
        simp [updateSessList, eraseSessKey, h, hfs]
      · simp [updateSessList, eraseSessKey, h, ih]

theorem findBib6_eq_none_of_not_mem {l : List TabledBib} {k : Addr6}
    (h : k ∉ l.map TabledBib.src6) : findBib6 l k = none := by
  induction l with
  | nil => rfl
  | cons b rest ih =>
      simp only [List.map_cons, List.mem_cons] at h
      push_neg at h
      have hb : ¬ b.src6 = k := fun he => h.1 he.symm
      simp [findBib6, hb, ih h.2]

theorem findBib6_eraseBibKey_self {l : List TabledBib} {k : Addr6}
    (hnodup : (l.map TabledBib.src6).Nodup) :
    findBib6 (eraseBibKey l k) k = none := by
  induction l with
  | nil => rfl
  | cons b rest ih =>
      simp only [List.map_cons, List.nodup_cons] at hnodup
      by_cases h : b.src6 = k
      · rw [eraseBibKey, if_pos h]
        exact findBib6_eq_none_of_not_mem (h ▸ hnodup.1)
      · rw [eraseBibKey, if_neg h]
        simp [findBib6, h, ih hnodup.2]

/-- C8: the RM fate. rm removes the session from its BIB entry's session
tree and from its expirer list (one matching record disappears from the
table's lists), decrements the session count, releases a stored type-2
packet if any, and removes the parent BIB entry from both trees exactly
when it is non-static and the removed session was its last; a static BIB
entry survives at zero sessions. -/
theorem c8_rm_spec (t : BibTable) (s : Session) (b : TabledBib)
    (hb : findBib6 t.bibs s.bibKey = some b)
    (hnodup : (t.bibs.map TabledBib.src6).Nodup) :
    (rm t s).estList = eraseSessKey t.estList s.bibKey s.dst4 ∧
    (rm t s).transList = eraseSessKey t.transList s.bibKey s.dst4 ∧
    (rm t s).syn4List = eraseSessKey t.syn4List s.bibKey s.dst4 ∧
    (rm t s).session_count = t.session_count - 1 ∧
    (rm t s).pkt_count = t.pkt_count - (if s.stored then 1 else 0) ∧
    (b.is_static = true → (rm t s).bibs = t.bibs) ∧
    (b.is_static = false →
      (sessionsOfKey (t.eraseSess s.bibKey s.dst4) s.bibKey = [] →
        (rm t s).bibs = eraseBibKey t.bibs b.src6 ∧
        findBib6 (rm t s).bibs s.bibKey = none) ∧
      (¬ sessionsOfKey (t.eraseSess s.bibKey s.dst4) s.bibKey = [] →
        (rm t s).bibs = t.bibs)) := by
  have hL : ∀ l, eraseSessKey
      (updateSessList (fun u => { u with stored := false }) l s.bibKey s.dst4)
      s.bibKey s.dst4 = eraseSessKey l s.bibKey s.dst4 :=
    fun l => eraseSessKey_updateSessList
      (fun u => { u with stored := false }) (fun u => ⟨rfl, rfl⟩) l _ _
  have hbk : b.src6 = s.bibKey := findBib6_some_src6 hb
  have hforget : findBib6 (eraseBibKey t.bibs b.src6) s.bibKey = none := by
    rw [hbk]
    exact findBib6_eraseBibKey_self hnodup
  unfold rm kill_stored
  cases hst : s.stored <;>
    simp only [if_true, if_false, Bool.false_eq_true, BibTable.eraseSess,
      BibTable.updateSess, hL, hb, ite_true, ite_false] <;>
    split <;>
    rename_i hcond <;>
    refine ⟨rfl, rfl, rfl, rfl, by simp, ?_, ?_⟩ <;>
    first
    | (intro h6
       exact absurd h6 hcond.1)
    | (intro h6
       rfl)
    | (intro h7
       exact ⟨fun _ => ⟨rfl, hforget⟩, fun hne => absurd hcond.2 hne⟩)
    | (intro h7
       refine ⟨fun hnil => ?_, fun _ => rfl⟩
       exact absurd ⟨fun hs => by rw [h7] at hs; exact Bool.false_ne_true hs, hnil⟩ hcond)

/-- A TCP table with one non-static BIB entry and one session carrying a
stored type-2 packet. -/
def tC8 : BibTable :=
  ⟨[⟨⟨1, 1⟩, ⟨2, 2⟩, .tcp, false⟩],
    [⟨⟨1, 1⟩, ⟨6, 6⟩, ⟨5, 80⟩, .ESTABLISHED, 3, true⟩], [], [], 1, 1, []⟩

/-- The session of tC8. -/
def sC8 : Session := ⟨⟨1, 1⟩, ⟨6, 6⟩, ⟨5, 80⟩, .ESTABLISHED, 3, true⟩

/-- Witness for C8: removing the last session of a non-static BIB entry
empties the table — the session is gone from the lists, the stored
packet is released, and the BIB entry is removed from the index. -/
theorem c8_rm_spec_witness :
    (rm tC8 sC8).estList = [] ∧
    (rm tC8 sC8).session_count = 0 ∧
    (rm tC8 sC8).pkt_count = 0 ∧
    (rm tC8 sC8).bibs = [] ∧
    findBib6 (rm tC8 sC8).bibs sC8.bibKey = none := by
  have h := c8_rm_spec tC8 sC8 ⟨⟨1, 1⟩, ⟨2, 2⟩, .tcp, false⟩ (by decide) (by decide)
  obtain ⟨h1, h2, h3, h4, h5, h6, h7⟩ := h
  have h9 := (h7 rfl).1 (by decide)
  refine ⟨?_, ?_, ?_, ?_, h9.2⟩
  · rw [h1]; decide
  · rw [h4]; decide
  · rw [h5]; decide
  · rw [h9.1]; decide

/-! ## Claim C1 -/

/-- C1: re-adding a tuple that is already in the database. With a BIB
entry for the tuple's src6 still covered by the mask set and a session
matching the (patched) destination, bib_add6 succeeds returning the
existing (BIB, session) pair — whose tuple equals the input tuple — and
creates no new BIB entry and no new session: the BIB index and the
session count are unchanged, and the only mutation is the re-arming of
the session's expirer (the session is re-linked at the tail of the
Established list with update_time refreshed to now). A subsequent find
on the tuple's src6 returns the same BIB entry. -/
theorem c1_readd_idempotent (now : Nat) (t : BibTable)
    (masks : Option MaskDomain) (tup : Tuple6) (dst4 : Addr4)
    (b : TabledBib) (s : Session)
    (hb : findBib6 t.bibs tup.src6 = some b)
    (h216 : issue216_needed masks b = false)
    (hs : t.findSession b.src6 (patchDst4 tup.proto b.src4.l4 dst4) = some s)
    (hdst6 : s.dst6 = tup.dst6)
    (hproto : b.proto = tup.proto) :
    bib_add6 now t masks tup dst4 =
      { table :=
          { t with
            estList := eraseSessKey t.estList s.bibKey s.dst4
              ++ [{ s with update_time := now }]
            transList := eraseSessKey t.transList s.bibKey s.dst4
            syn4List := eraseSessKey t.syn4List s.bibKey s.dst4 }
        code := 0
        stat := none
        result := some (.full (tstobsSnap b { s with update_time := now })) } ∧
    (tstobsSnap b { s with update_time := now }).src6 = tup.src6 ∧
    (tstobsSnap b { s with update_time := now }).dst6 = tup.dst6 ∧
    (tstobsSnap b { s with update_time := now }).proto = tup.proto ∧
    (bib_add6 now t masks tup dst4).table.bibs = t.bibs ∧
    (bib_add6 now t masks tup dst4).table.session_count = t.session_count ∧
    (bib_add6 now t masks tup dst4).table.pkt_count = t.pkt_count ∧
    (bib_add6 now t masks tup dst4).table.pkt_queue = t.pkt_queue ∧
    bib_find6 (bib_add6 now t masks tup dst4).table tup.src6 ⟨⟨0, 0⟩, ⟨0, 0⟩, .udp⟩
      = (0, ⟨b.src6, b.src4, b.proto⟩) := by
  have hmain : bib_add6 now t masks tup dst4 =
      { table :=
          { t with
            estList := eraseSessKey t.estList s.bibKey s.dst4
              ++ [{ s with update_time := now }]
            transList := eraseSessKey t.transList s.bibKey s.dst4
            syn4List := eraseSessKey t.syn4List s.bibKey s.dst4 }
        code := 0
        stat := none
        result := some (.full (tstobsSnap b { s with update_time := now })) } := by
    simp only [bib_add6, find_bib_session6, hb, h216, Bool.false_eq_true,
      if_false, ite_false, hs, handle_fate_timer, BibTable.eraseSess,
      BibTable.addTail, Option.getD]
  refine ⟨hmain, ?_, ?_, ?_, ?_, ?_, ?_, ?_, ?_⟩
  · simpa [tstobsSnap] using findBib6_some_src6 hb
  · simpa [tstobsSnap] using hdst6
  · simpa [tstobsSnap] using hproto
  · rw [hmain]
  · rw [hmain]
  · rw [hmain]
  · rw [hmain]
  · rw [hmain]
    simp [bib_find6, hb]

/-- A UDP table holding the state produced by one successful add6:
one BIB entry 2001:db8-ish#1000 ↔ 192.0.2-ish#61001 and its Established
session. -/
def tC1 : BibTable :=
  ⟨[⟨⟨0xA1, 1000⟩, ⟨201, 61001⟩, .udp, false⟩],
    [⟨⟨0xA1, 1000⟩, ⟨0xB5, 80⟩, ⟨5, 80⟩, .ESTABLISHED, 10, false⟩],
    [], [], 1, 0, []⟩

/-- The tuple whose state tC1 holds. -/
def tupC1 : Tuple6 := ⟨⟨0xA1, 1000⟩, ⟨0xB5, 80⟩, .udp⟩

/-- Witness for C1: re-adding the same tuple at a later time re-arms the
session (update_time 10 → 20, still the sole session, at the tail of the
Established list) without creating anything. -/
theorem c1_readd_idempotent_witness :
    bib_add6 20 tC1 (some ⟨[⟨201, 61001⟩], true⟩) tupC1 ⟨5, 80⟩ =
      { table :=
          ⟨[⟨⟨0xA1, 1000⟩, ⟨201, 61001⟩, .udp, false⟩],
            [⟨⟨0xA1, 1000⟩, ⟨0xB5, 80⟩, ⟨5, 80⟩, .ESTABLISHED, 20, false⟩],
            [], [], 1, 0, []⟩
        code := 0
        stat := none
        result := some (.full ⟨⟨0xA1, 1000⟩, ⟨201, 61001⟩, ⟨0xB5, 80⟩, ⟨5, 80⟩,
          .udp, .ESTABLISHED, 20⟩) } ∧
    (bib_add6 20 tC1 (some ⟨[⟨201, 61001⟩], true⟩) tupC1 ⟨5, 80⟩).table.bibs
      = tC1.bibs ∧
    (bib_add6 20 tC1 (some ⟨[⟨201, 61001⟩], true⟩) tupC1 ⟨5, 80⟩).table.session_count
      = tC1.session_count := by
  have h := c1_readd_idempotent 20 tC1 (some ⟨[⟨201, 61001⟩], true⟩) tupC1 ⟨5, 80⟩
      ⟨⟨0xA1, 1000⟩, ⟨201, 61001⟩, .udp, false⟩
      ⟨⟨0xA1, 1000⟩, ⟨0xB5, 80⟩, ⟨5, 80⟩, .ESTABLISHED, 10, false⟩
      (by decide) (by decide) (by decide) (by decide) (by decide)
  refine ⟨?_, h.2.2.2.2.1, h.2.2.2.2.2.1⟩
  rw [h.1]
  decide

/-! ## Session-key uniqueness toolkit (for the stored-packet accounting
and the expirer-list ordering claims) -/

/-- The session key: a session is identified inside its table by its
owning BIB's src6 plus its dst4. -/
def sameKey (k : Addr6) (d : Addr4) (u : Session) : Bool :=
  decide (u.bibKey = k ∧ u.dst4 = d)

/-- The representation invariant of the session trees: no two tabled
sessions share (owning BIB, dst4). -/
def sessKeysUnique (t : BibTable) : Prop :=
  ∀ u ∈ t.allSessions, t.allSessions.countP (sameKey u.bibKey u.dst4) ≤ 1

theorem findSessList_eq_none_iff {l : List Session} {k : Addr6} {d : Addr4} :
    findSessList l k d = none ↔ l.countP (sameKey k d) = 0 := by
  induction l with
  | nil => simp [findSessList]
  | cons u rest ih =>
      by_cases h : u.bibKey = k ∧ u.dst4 = d <;>
        simp [findSessList, List.countP_cons, sameKey, h, ih]

theorem findSessList_append (a b : List Session) (k : Addr6) (d : Addr4) :
    findSessList (a ++ b) k d =
      match findSessList a k d with
      | some u => some u
      | none => findSessList b k d := by
  induction a with
  | nil => simp [findSessList]
  | cons u rest ih =>
      by_cases h : u.bibKey = k ∧ u.dst4 = d <;>
        simp [findSessList, h, ih]

theorem findSessList_some {l : List Session} {k : Addr6} {d : Addr4}
    {u : Session} (h : findSessList l k d = some u) :
    u ∈ l ∧ u.bibKey = k ∧ u.dst4 = d ∧ 1 ≤ l.countP (sameKey k d) := by
  induction l with
  | nil => simp [findSessList] at h
  | cons v rest ih =>
      by_cases hv : v.bibKey = k ∧ v.dst4 = d
      · rw [findSessList, if_pos hv] at h
        cases h
        exact ⟨List.mem_cons_self _ _, hv.1, hv.2,
          by simp [List.countP_cons, sameKey, hv]⟩
      · rw [findSessList, if_neg hv] at h
        obtain ⟨h1, h2, h3, h4⟩ := ih h
        exact ⟨List.mem_cons_of_mem _ h1, h2, h3,
          le_trans h4 (by simp [List.countP_cons])⟩

theorem updateSessList_no_match {l : List Session} {k : Addr6} {d : Addr4}
    (f : Session → Session) (h : findSessList l k d = none) :
    updateSessList f l k d = l := by
  induction l with
  | nil => rfl
  | cons v rest ih =>
      by_cases hv : v.bibKey = k ∧ v.dst4 = d
      · rw [findSessList, if_pos hv] at h
        cases h
      · rw [findSessList, if_neg hv] at h
        rw [updateSessList, if_neg hv, ih h]

theorem eraseSessKey_no_match {l : List Session} {k : Addr6} {d : Addr4}
    (h : findSessList l k d = none) :
    eraseSessKey l k d = l := by
  induction l with
  | nil => rfl
  | cons v rest ih =>
      by_cases hv : v.bibKey = k ∧ v.dst4 = d
      · rw [findSessList, if_pos hv] at h
        cases h
      · rw [findSessList, if_neg hv] at h
        rw [eraseSessKey, if_neg hv, ih h]

theorem findSessList_updateSessList (f : Session → Session)
    (hf : ∀ u, (f u).bibKey = u.bibKey ∧ (f u).dst4 = u.dst4)
    (l : List Session) (k : Addr6) (d : Addr4) :
    findSessList (updateSessList f l k d) k d
      = (findSessList l k d).map f := by
  induction l with
  | nil => rfl
  | cons v rest ih =>
      by_cases hv : v.bibKey = k ∧ v.dst4 = d
      · have hfv : (f v).bibKey = k ∧ (f v).dst4 = d :=
          ⟨(hf v).1.trans hv.1, (hf v).2.trans hv.2⟩
        rw [updateSessList, if_pos hv, findSessList, if_pos hfv,
          findSessList, if_pos hv]
        rfl
      · rw [updateSessList, if_neg hv, findSessList, if_neg hv,
          findSessList, if_neg hv, ih]

theorem countP_updateSessList (p : Session → Bool) (f : Session → Session)
    (hpf : ∀ u, p (f u) = p u) (l : List Session) (k : Addr6) (d : Addr4) :
    (updateSessList f l k d).countP p = l.countP p := by
  induction l with
  | nil => rfl
  | cons v rest ih =>
      by_cases hv : v.bibKey = k ∧ v.dst4 = d
      · rw [updateSessList, if_pos hv]
        simp [List.countP_cons, hpf]
      · rw [updateSessList, if_neg hv]
        simp [List.countP_cons, ih]

theorem countP_stored_update_setFalse {l : List Session} {k : Addr6}
    {d : Addr4} {u : Session} (h : findSessList l k d = some u) :
    (updateSessList (fun v => { v with stored := false }) l k d).countP
        (fun v => v.stored)
      + (if u.stored then 1 else 0)
      = l.countP (fun v => v.stored) := by
  induction l with
  | nil => simp [findSessList] at h
  | cons v rest ih =>
      by_cases hv : v.bibKey = k ∧ v.dst4 = d
      · rw [findSessList, if_pos hv] at h
        cases h
        rw [updateSessList, if_pos hv]
        simp [List.countP_cons]
      · rw [findSessList, if_neg hv] at h
        rw [updateSessList, if_neg hv]
        simp only [List.countP_cons]
        have := ih h
        omega

theorem countP_stored_erase {l : List Session} {k : Addr6} {d : Addr4}
    {u : Session} (h : findSessList l k d = some u) :
    (eraseSessKey l k d).countP (fun v => v.stored)
      + (if u.stored then 1 else 0)
      = l.countP (fun v => v.stored) := by
  induction l with
  | nil => simp [findSessList] at h
  | cons v rest ih =>
      by_cases hv : v.bibKey = k ∧ v.dst4 = d
      · rw [findSessList, if_pos hv] at h
        cases h
        rw [eraseSessKey, if_pos hv]
        simp [List.countP_cons]
      · rw [findSessList, if_neg hv] at h
        rw [eraseSessKey, if_neg hv]
        simp only [List.countP_cons]
        have := ih h
        omega

theorem eraseSessKey_sublist (l : List Session) (k : Addr6) (d : Addr4) :
    List.Sublist (eraseSessKey l k d) l := by
  induction l with
  | nil => exact List.Sublist.refl _
  | cons v rest ih =>
      by_cases hv : v.bibKey = k ∧ v.dst4 = d
      · rw [eraseSessKey, if_pos hv]
        exact List.sublist_cons_self _ _
      · rw [eraseSessKey, if_neg hv]
        exact ih.cons₂ _

theorem insRev_perm (s : Session) (l : List Session) :
    List.Perm (insRev s l) (s :: l) := by
  induction l with
  | nil => exact List.Perm.refl _
  | cons x xs ih =>
      by_cases h : x.update_time < s.update_time
      · rw [insRev, if_pos h]
      · rw [insRev, if_neg h]
        exact (ih.cons x).trans (List.Perm.swap s x xs)

theorem orderedInsert_perm (s : Session) (l : List Session) :
    List.Perm (orderedInsert s l) (s :: l) := by
  unfold orderedInsert
  exact ((List.reverse_perm _).trans (insRev_perm s l.reverse)).trans
    ((List.reverse_perm l).cons s)

theorem length_filter_countP (p : α → Bool) (l : List α) :
    (l.filter p).length = l.countP p := by
  induction l with
  | nil => rfl
  | cons a rest ih => cases h : p a <;> simp [List.filter_cons, h, List.countP_cons, ih]

theorem storedSessCount_eq_sum (t : BibTable) :
    storedSessCount t = t.estList.countP (fun v => v.stored)
      + t.transList.countP (fun v => v.stored)
      + t.syn4List.countP (fun v => v.stored) := by
  unfold storedSessCount BibTable.allSessions
  rw [List.filter_append, List.filter_append, List.length_append,
    List.length_append, length_filter_countP, length_filter_countP,
    length_filter_countP]

theorem findSession_locate {t : BibTable} {k : Addr6} {d : Addr4} {s : Session}
    (hfound : t.findSession k d = some s)
    (hcnt : t.allSessions.countP (sameKey k d) ≤ 1) :
    (findSessList t.estList k d = some s ∧ findSessList t.transList k d = none
        ∧ findSessList t.syn4List k d = none) ∨
    (findSessList t.estList k d = none ∧ findSessList t.transList k d = some s
        ∧ findSessList t.syn4List k d = none) ∨
    (findSessList t.estList k d = none ∧ findSessList t.transList k d = none
        ∧ findSessList t.syn4List k d = some s) := by
  unfold BibTable.findSession at hfound
  unfold BibTable.allSessions at hfound hcnt
  rw [List.countP_append, List.countP_append] at hcnt
  rw [findSessList_append, findSessList_append] at hfound
  cases he : findSessList t.estList k d with
  | some u =>
      rw [he] at hfound
      cases hfound
      have h1 := (findSessList_some he).2.2.2
      have h2 : t.transList.countP (sameKey k d) = 0 := by omega
      have h3 : t.syn4List.countP (sameKey k d) = 0 := by omega
      exact Or.inl ⟨rfl, findSessList_eq_none_iff.mpr h2,
        findSessList_eq_none_iff.mpr h3⟩
  | none =>
      rw [he] at hfound
      cases ht : findSessList t.transList k d with
      | some u =>
          rw [ht] at hfound
          cases hfound
          have h1 := (findSessList_some ht).2.2.2
          have h3 : t.syn4List.countP (sameKey k d) = 0 := by omega
          exact Or.inr (Or.inl ⟨rfl, rfl, findSessList_eq_none_iff.mpr h3⟩)
      | none =>
          rw [ht] at hfound
          exact Or.inr (Or.inr ⟨rfl, rfl, hfound⟩)

theorem storedSessCount_updateSess_pres (t : BibTable) (k : Addr6) (d : Addr4)
    (f : Session → Session) (hf : ∀ u, (f u).stored = u.stored) :
    storedSessCount (t.updateSess k d f) = storedSessCount t := by
  rw [storedSessCount_eq_sum, storedSessCount_eq_sum]
  simp only [BibTable.updateSess]
  rw [countP_updateSessList _ f hf, countP_updateSessList _ f hf,
    countP_updateSessList _ f hf]

theorem storedSessCount_update_kill {t : BibTable} {k : Addr6} {d : Addr4}
    {s : Session} (hfound : t.findSession k d = some s)
    (hcnt : t.allSessions.countP (sameKey k d) ≤ 1) :
    storedSessCount (t.updateSess k d (fun v => { v with stored := false }))
      + (if s.stored then 1 else 0) = storedSessCount t := by
  rw [storedSessCount_eq_sum, storedSessCount_eq_sum]
  simp only [BibTable.updateSess]
  rcases findSession_locate hfound hcnt with ⟨h1, h2, h3⟩ | ⟨h1, h2, h3⟩ | ⟨h1, h2, h3⟩
  · rw [updateSessList_no_match _ h2, updateSessList_no_match _ h3]
    have := countP_stored_update_setFalse h1
    omega
  · rw [updateSessList_no_match _ h1, updateSessList_no_match _ h3]
    have := countP_stored_update_setFalse h2
    omega
  · rw [updateSessList_no_match _ h1, updateSessList_no_match _ h2]
    have := countP_stored_update_setFalse h3
    omega

theorem storedSessCount_erase {t : BibTable} {k : Addr6} {d : Addr4}
    {s : Session} (hfound : t.findSession k d = some s)
    (hcnt : t.allSessions.countP (sameKey k d) ≤ 1) :
    storedSessCount (t.eraseSess k d) + (if s.stored then 1 else 0)
      = storedSessCount t := by
  rw [storedSessCount_eq_sum, storedSessCount_eq_sum]
  simp only [BibTable.eraseSess]
  rcases findSession_locate hfound hcnt with ⟨h1, h2, h3⟩ | ⟨h1, h2, h3⟩ | ⟨h1, h2, h3⟩
  · rw [eraseSessKey_no_match h2, eraseSessKey_no_match h3]
    have := countP_stored_erase h1
    omega
  · rw [eraseSessKey_no_match h1, eraseSessKey_no_match h3]
    have := countP_stored_erase h2
    omega
  · rw [eraseSessKey_no_match h1, eraseSessKey_no_match h2]
    have := countP_stored_erase h3
    omega

theorem storedSessCount_addTail (t : BibTable) (x : Session) (timer : TimerType) :
    storedSessCount (t.addTail x timer)
      = storedSessCount t + (if x.stored then 1 else 0) := by
  cases timer <;>
    · rw [storedSessCount_eq_sum, storedSessCount_eq_sum]
      simp only [BibTable.addTail]
      rw [List.countP_append]
      simp [List.countP_cons]
      cases hx : x.stored <;> simp <;> omega

theorem findSession_updateSess (t : BibTable) (k : Addr6) (d : Addr4)
    (f : Session → Session)
    (hf : ∀ u, (f u).bibKey = u.bibKey ∧ (f u).dst4 = u.dst4) :
    (t.updateSess k d f).findSession k d = (t.findSession k d).map f := by
  unfold BibTable.findSession BibTable.allSessions
  simp only [BibTable.updateSess]
  simp only [findSessList_append]
  rw [findSessList_updateSessList f hf, findSessList_updateSessList f hf,
    findSessList_updateSessList f hf]
  cases findSessList t.estList k d <;>
    cases findSessList t.transList k d <;>
      cases findSessList t.syn4List k d <;> simp

theorem mem_updateSessList {u' : Session} (f : Session → Session)
    {l : List Session} {k : Addr6} {d : Addr4}
    (h : u' ∈ updateSessList f l k d) :
    u' ∈ l ∨ ∃ u, u ∈ l ∧ u' = f u := by
  induction l with
  | nil => simp [updateSessList] at h
  | cons v rest ih =>
      by_cases hv : v.bibKey = k ∧ v.dst4 = d
      · rw [updateSessList, if_pos hv] at h
        rcases List.mem_cons.mp h with h | h
        · exact Or.inr ⟨v, List.mem_cons_self _ _, h⟩
        · exact Or.inl (List.mem_cons_of_mem _ h)
      · rw [updateSessList, if_neg hv] at h
        rcases List.mem_cons.mp h with h | h
        · exact Or.inl (h ▸ List.mem_cons_self _ _)
        · rcases ih h with h | ⟨u, hu, he⟩
          · exact Or.inl (List.mem_cons_of_mem _ h)
          · exact Or.inr ⟨u, List.mem_cons_of_mem _ hu, he⟩

theorem sessKeysUnique_updateSess (t : BibTable) (k : Addr6) (d : Addr4)
    (f : Session → Session)
    (hf : ∀ u, (f u).bibKey = u.bibKey ∧ (f u).dst4 = u.dst4)
    (h : sessKeysUnique t) : sessKeysUnique (t.updateSess k d f) := by
  have hck : ∀ (k' : Addr6) (d' : Addr4) (u : Session),
      sameKey k' d' (f u) = sameKey k' d' u := by
    intro k' d' u
    simp [sameKey, (hf u).1, (hf u).2]
  have hcall : ∀ (k' : Addr6) (d' : Addr4),
      (t.updateSess k d f).allSessions.countP (sameKey k' d')
        = t.allSessions.countP (sameKey k' d') := by
    intro k' d'
    unfold BibTable.allSessions
    simp only [BibTable.updateSess]
    rw [List.countP_append, List.countP_append,
      List.countP_append, List.countP_append,
      countP_updateSessList _ f (hck k' d'), countP_updateSessList _ f (hck k' d'),
      countP_updateSessList _ f (hck k' d')]
  intro u' hu'
  rw [hcall]
  have haux : ∀ (l : List Session), u' ∈ updateSessList f l k d →
      ∃ w, w ∈ l ∧ w.bibKey = u'.bibKey ∧ w.dst4 = u'.dst4 := by
    intro l hl
    rcases mem_updateSessList f hl with hm | ⟨w, hw, he⟩
    · exact ⟨u', hm, rfl, rfl⟩
    · refine ⟨w, hw, ?_, ?_⟩
      · rw [he]
        exact (hf w).1.symm
      · rw [he]
        exact (hf w).2.symm
  have hsplit : u' ∈ updateSessList f t.estList k d ∨
      u' ∈ updateSessList f t.transList k d ∨
      u' ∈ updateSessList f t.syn4List k d := by
    unfold BibTable.allSessions at hu'
    simp only [BibTable.updateSess, List.mem_append] at hu'
    tauto
  have hmem : ∃ w, w ∈ t.allSessions ∧ w.bibKey = u'.bibKey ∧ w.dst4 = u'.dst4 := by
    rcases hsplit with h' | h' | h'
    · obtain ⟨w, hw, hb, hd⟩ := haux _ h'
      exact ⟨w, by simp [BibTable.allSessions, hw], hb, hd⟩
    · obtain ⟨w, hw, hb, hd⟩ := haux _ h'
      exact ⟨w, by simp [BibTable.allSessions, hw], hb, hd⟩
    · obtain ⟨w, hw, hb, hd⟩ := haux _ h'
      exact ⟨w, by simp [BibTable.allSessions, hw], hb, hd⟩
  obtain ⟨w, hw, hk1, hk2⟩ := hmem
  rw [← hk1, ← hk2]
  exact h w hw

theorem allSessions_eraseSess_sublist (t : BibTable) (k : Addr6) (d : Addr4) :
    List.Sublist (t.eraseSess k d).allSessions t.allSessions := by
  unfold BibTable.allSessions
  simp only [BibTable.eraseSess]
  exact (((eraseSessKey_sublist _ _ _).append
    (eraseSessKey_sublist _ _ _)).append (eraseSessKey_sublist _ _ _))

theorem sessKeysUnique_eraseSess (t : BibTable) (k : Addr6) (d : Addr4)
    (h : sessKeysUnique t) : sessKeysUnique (t.eraseSess k d) := by
  intro u hu
  have hsub := allSessions_eraseSess_sublist t k d
  exact le_trans (hsub.countP_le _) (h u (hsub.subset hu))

/-! ## Claim C5: stored-packet accounting -/

theorem addTail_pkt_fields (t : BibTable) (x : Session) (timer : TimerType) :
    (t.addTail x timer).pkt_count = t.pkt_count ∧
    (t.addTail x timer).pkt_queue = t.pkt_queue := by
  cases timer <;> exact ⟨rfl, rfl⟩

theorem countP_orderedInsert (p : Session → Bool) (s : Session) (l : List Session) :
    (orderedInsert s l).countP p = l.countP p + (if p s then 1 else 0) := by
  rw [(orderedInsert_perm s l).countP_eq p, List.countP_cons]

theorem mem_of_findSession {t : BibTable} {k : Addr6} {d : Addr4} {s : Session}
    (h : t.findSession k d = some s) : s ∈ t.allSessions :=
  (findSessList_some h).1

/-- The table-level effects of kill_stored_pkt: the packet count and the
stored-session count drop together by the session's bit; the session
record comes back with its keys intact and stored cleared; the session
stays findable and key uniqueness survives. -/
theorem kill_stored_spec (t : BibTable) (s : Session)
    (hfound : t.findSession s.bibKey s.dst4 = some s)
    (huniq : sessKeysUnique t) :
    (kill_stored t s).1.pkt_count = t.pkt_count - (if s.stored then 1 else 0) ∧
    storedSessCount (kill_stored t s).1 + (if s.stored then 1 else 0)
      = storedSessCount t ∧
    (kill_stored t s).1.pkt_queue = t.pkt_queue ∧
    (kill_stored t s).2.bibKey = s.bibKey ∧
    (kill_stored t s).2.dst4 = s.dst4 ∧
    (kill_stored t s).2.stored = false ∧
    (kill_stored t s).1.findSession s.bibKey s.dst4 = some (kill_stored t s).2 ∧
    sessKeysUnique (kill_stored t s).1 := by
  have hcnt : t.allSessions.countP (sameKey s.bibKey s.dst4) ≤ 1 :=
    huniq s (mem_of_findSession hfound)
  have hkeys : ∀ u : Session,
      ({ u with stored := false } : Session).bibKey = u.bibKey ∧
      ({ u with stored := false } : Session).dst4 = u.dst4 := fun u => ⟨rfl, rfl⟩
  cases hst : s.stored
  · have hk : kill_stored t s = (t, s) := by
      unfold kill_stored
      rw [if_neg (by simp [hst])]
    rw [hk]
    exact ⟨by simp, by simp, rfl, rfl, rfl, hst, hfound, huniq⟩
  · have hk : kill_stored t s =
        ({ t.updateSess s.bibKey s.dst4 (fun u => { u with stored := false }) with
            pkt_count := t.pkt_count - 1 },
          { s with stored := false }) := by
      unfold kill_stored
      rw [if_pos (by simp [hst])]
    rw [hk]
    refine ⟨by simp, ?_, rfl, rfl, rfl, rfl, ?_, ?_⟩
    · have h := storedSessCount_update_kill hfound hcnt
      rw [hst] at h
      simpa using h
    · show (t.updateSess s.bibKey s.dst4
          (fun u => { u with stored := false })).findSession s.bibKey s.dst4
        = some { s with stored := false }
      rw [findSession_updateSess _ _ _ _ hkeys, hfound]
      rfl
    · show sessKeysUnique
        (t.updateSess s.bibKey s.dst4 (fun u => { u with stored := false }))
      exact sessKeysUnique_updateSess _ _ _ _ hkeys huniq

/-- handle_fate_timer keeps the stored-packet accounting: the re-linked
session carries its stored bit along. -/
theorem handle_fate_timer_acct (now : Nat) (t : BibTable) (s : Session)
    (timer : TimerType)
    (hfound : t.findSession s.bibKey s.dst4 = some s)
    (huniq : sessKeysUnique t) :
    storedSessCount (handle_fate_timer now t s timer) = storedSessCount t ∧
    (handle_fate_timer now t s timer).pkt_count = t.pkt_count ∧
    (handle_fate_timer now t s timer).pkt_queue = t.pkt_queue := by
  have hcnt : t.allSessions.countP (sameKey s.bibKey s.dst4) ≤ 1 :=
    huniq s (mem_of_findSession hfound)
  have herase := storedSessCount_erase hfound hcnt
  unfold handle_fate_timer
  obtain ⟨hp, hq⟩ := addTail_pkt_fields (t.eraseSess s.bibKey s.dst4)
    { s with update_time := now } timer
  refine ⟨?_, hp.trans rfl, hq.trans rfl⟩
  rw [storedSessCount_addTail]
  show storedSessCount (t.eraseSess s.bibKey s.dst4)
      + (if s.stored then 1 else 0) = _
  omega

/-- rm keeps the accounting: the removed session's stored packet (if
any) leaves both the table and the packet count. -/
theorem rm_acct (t : BibTable) (s : Session)
    (hfound : t.findSession s.bibKey s.dst4 = some s)
    (huniq : sessKeysUnique t) :
    (rm t s).pkt_count = t.pkt_count - (if s.stored then 1 else 0) ∧
    storedSessCount (rm t s) + (if s.stored then 1 else 0) = storedSessCount t ∧
    (rm t s).pkt_queue = t.pkt_queue := by
  obtain ⟨k1, k2, k3, k4, k5, k6, k7, k8⟩ := kill_stored_spec t s hfound huniq
  have hcnt2 : (kill_stored t s).1.allSessions.countP (sameKey s.bibKey s.dst4) ≤ 1 := by
    have := k8 (kill_stored t s).2 (mem_of_findSession k7)
    rwa [k4, k5] at this
  have herase : storedSessCount ((kill_stored t s).1.eraseSess s.bibKey s.dst4)
      = storedSessCount (kill_stored t s).1 := by
    have h := storedSessCount_erase k7 hcnt2
    rw [k6] at h
    simpa using h
  have hproj : (rm t s).pkt_count = (kill_stored t s).1.pkt_count ∧
      (rm t s).pkt_queue = (kill_stored t s).1.pkt_queue ∧
      storedSessCount (rm t s)
        = storedSessCount ((kill_stored t s).1.eraseSess s.bibKey s.dst4) := by
    unfold rm
    simp only []
    split
    · exact ⟨rfl, rfl, rfl⟩
    · split
      · exact ⟨rfl, rfl, rfl⟩
      · exact ⟨rfl, rfl, rfl⟩
  obtain ⟨p1, p2, p3⟩ := hproj
  refine ⟨p1.trans k1, ?_, p2.trans k3⟩
  rw [p3, herase]
  exact k2

theorem queue_unsorted_acct (t : BibTable) (s : Session) (timer : TimerType)
    (hfound : t.findSession s.bibKey s.dst4 = some s)
    (huniq : sessKeysUnique t) :
    storedSessCount (queue_unsorted_session t s timer true) = storedSessCount t ∧
    (queue_unsorted_session t s timer true).pkt_count = t.pkt_count ∧
    (queue_unsorted_session t s timer true).pkt_queue = t.pkt_queue := by
  have hcnt : t.allSessions.countP (sameKey s.bibKey s.dst4) ≤ 1 :=
    huniq s (mem_of_findSession hfound)
  have herase := storedSessCount_erase hfound hcnt
  rw [storedSessCount_eq_sum] at herase
  simp only [BibTable.eraseSess] at herase
  cases timer
  · have hq : queue_unsorted_session t s .est true
        = { t.eraseSess s.bibKey s.dst4 with
            estList := orderedInsert s (eraseSessKey t.estList s.bibKey s.dst4) } :=
      rfl
    rw [hq]
    refine ⟨?_, rfl, rfl⟩
    conv_lhs => rw [storedSessCount_eq_sum]
    simp only [BibTable.eraseSess]
    rw [countP_orderedInsert]
    omega
  · have hq : queue_unsorted_session t s .trans true
        = { t.eraseSess s.bibKey s.dst4 with
            transList := orderedInsert s (eraseSessKey t.transList s.bibKey s.dst4) } :=
      rfl
    rw [hq]
    refine ⟨?_, rfl, rfl⟩
    conv_lhs => rw [storedSessCount_eq_sum]
    simp only [BibTable.eraseSess]
    rw [countP_orderedInsert]
    omega
  · have hq : queue_unsorted_session t s .syn4 true
        = { t.eraseSess s.bibKey s.dst4 with
            syn4List := orderedInsert s (eraseSessKey t.syn4List s.bibKey s.dst4) } :=
      rfl
    rw [hq]
    refine ⟨?_, rfl, rfl⟩
    conv_lhs => rw [storedSessCount_eq_sum]
    simp only [BibTable.eraseSess]
    rw [countP_orderedInsert]
    omega

theorem fate_timer_acct_goal (now : Nat) (t0 t2 : BibTable) (s2 : Session)
    (timer : TimerType)
    (C : t2.findSession s2.bibKey s2.dst4 = some s2)
    (D : sessKeysUnique t2)
    (A : t2.pkt_count = storedTotal t2)
    (B : storedTotal t2 ≤ storedTotal t0) :
    (handle_fate_timer now t2 s2 timer).pkt_count
      = storedTotal (handle_fate_timer now t2 s2 timer) ∧
    storedTotal (handle_fate_timer now t2 s2 timer) ≤ storedTotal t0 := by
  obtain ⟨e1, e2, e3⟩ := handle_fate_timer_acct now t2 s2 timer C D
  have hlen : (handle_fate_timer now t2 s2 timer).pkt_queue.length
      = t2.pkt_queue.length := by rw [e3]
  unfold storedTotal at *
  omega

theorem fate_probe_acct_goal (now : Nat) (t0 t2 : BibTable) (s2 : Session)
    (C : t2.findSession s2.bibKey s2.dst4 = some s2)
    (D : sessKeysUnique t2)
    (A : t2.pkt_count = storedTotal t2)
    (B : storedTotal t2 ≤ storedTotal t0) :
    (handle_fate_timer now (kill_stored t2 s2).1 (kill_stored t2 s2).2 .trans).pkt_count
      = storedTotal
          (handle_fate_timer now (kill_stored t2 s2).1 (kill_stored t2 s2).2 .trans) ∧
    storedTotal
        (handle_fate_timer now (kill_stored t2 s2).1 (kill_stored t2 s2).2 .trans)
      ≤ storedTotal t0 := by
  obtain ⟨k1, k2, k3, k4, k5, k6, k7, k8⟩ := kill_stored_spec t2 s2 C D
  have k7' : (kill_stored t2 s2).1.findSession (kill_stored t2 s2).2.bibKey
      (kill_stored t2 s2).2.dst4 = some (kill_stored t2 s2).2 := by
    rw [k4, k5]
    exact k7
  obtain ⟨e1, e2, e3⟩ :=
    handle_fate_timer_acct now (kill_stored t2 s2).1 (kill_stored t2 s2).2 .trans k7' k8
  have hlen : (handle_fate_timer now (kill_stored t2 s2).1
      (kill_stored t2 s2).2 .trans).pkt_queue.length
      = (kill_stored t2 s2).1.pkt_queue.length := by rw [e3]
  have hlen2 : (kill_stored t2 s2).1.pkt_queue.length = t2.pkt_queue.length := by
    rw [k3]
  unfold storedTotal at *
  cases hst2 : s2.stored <;> rw [hst2] at k1 k2 <;> simp at k1 k2 <;>
    exact ⟨by omega, by omega⟩

theorem fate_rm_acct_goal (now : Nat) (t0 t2 : BibTable) (s2 : Session)
    (C : t2.findSession s2.bibKey s2.dst4 = some s2)
    (D : sessKeysUnique t2)
    (A : t2.pkt_count = storedTotal t2)
    (B : storedTotal t2 ≤ storedTotal t0) :
    (rm t2 s2).pkt_count = storedTotal (rm t2 s2) ∧
    storedTotal (rm t2 s2) ≤ storedTotal t0 := by
  obtain ⟨r1, r2, r3⟩ := rm_acct t2 s2 C D
  have hlen : (rm t2 s2).pkt_queue.length = t2.pkt_queue.length := by rw [r3]
  unfold storedTotal at *
  cases hst2 : s2.stored <;> rw [hst2] at r1 r2 <;> simp at r1 r2 <;>
    exact ⟨by omega, by omega⟩

theorem fate_slow_acct_goal (now : Nat) (t0 t2 : BibTable) (s2 : Session)
    (tt : TimerType)
    (C : t2.findSession s2.bibKey s2.dst4 = some s2)
    (D : sessKeysUnique t2)
    (A : t2.pkt_count = storedTotal t2)
    (B : storedTotal t2 ≤ storedTotal t0) :
    (queue_unsorted_session t2 s2 tt true).pkt_count
      = storedTotal (queue_unsorted_session t2 s2 tt true) ∧
    storedTotal (queue_unsorted_session t2 s2 tt true) ≤ storedTotal t0 := by
  obtain ⟨q1, q2, q3⟩ := queue_unsorted_acct t2 s2 tt C D
  have hlen : (queue_unsorted_session t2 s2 tt true).pkt_queue.length
      = t2.pkt_queue.length := by rw [q3]
  unfold storedTotal at *
  omega

/-- The copy-back of the callback-tweakable session fields
(decide_fate writes tmp.state and tmp.update_time into the tabled
session). -/
def cbPatch (out : CbOut) (u : Session) : Session :=
  { u with tcpState := out.tcpState, update_time := out.update_time }

/-- decide_fate never increases the stored-packet total and keeps
pkt_count synchronized with it, whatever the callback decides. -/
theorem decide_fate_acct (now : Nat) (cb : Option (Session → CbOut))
    (t : BibTable) (s : Session)
    (hfound : t.findSession s.bibKey s.dst4 = some s)
    (huniq : sessKeysUnique t)
    (hacct : t.pkt_count = storedTotal t) :
    (decide_fate now cb t s).1.pkt_count
      = storedTotal (decide_fate now cb t s).1 ∧
    storedTotal (decide_fate now cb t s).1 ≤ storedTotal t := by
  cases cb with
  | none => exact ⟨hacct, le_refl _⟩
  | some c =>
    simp only [decide_fate]
    generalize c s = out
    have hk1 : ∀ u : Session,
        (cbPatch out u).bibKey = u.bibKey ∧ (cbPatch out u).dst4 = u.dst4 :=
      fun u => ⟨rfl, rfl⟩
    have hfound1 : (t.updateSess s.bibKey s.dst4 (cbPatch out)).findSession
        s.bibKey s.dst4 = some (cbPatch out s) := by
      rw [findSession_updateSess _ _ _ _ hk1, hfound]
      rfl
    have huniq1 := sessKeysUnique_updateSess t s.bibKey s.dst4 (cbPatch out)
      hk1 huniq
    have hssc1 : storedSessCount (t.updateSess s.bibKey s.dst4 (cbPatch out))
        = storedSessCount t :=
      storedSessCount_updateSess_pres _ _ _ _ (fun u => rfl)
    have hacct1 : (t.updateSess s.bibKey s.dst4 (cbPatch out)).pkt_count
        = storedTotal (t.updateSess s.bibKey s.dst4 (cbPatch out)) := by
      unfold storedTotal at *
      rw [hssc1]
      exact hacct
    have hle1 : storedTotal (t.updateSess s.bibKey s.dst4 (cbPatch out))
        = storedTotal t := by
      unfold storedTotal
      rw [hssc1]
      rfl
    have bundle :
        (if ¬ out.has_stored = true
            then kill_stored (t.updateSess s.bibKey s.dst4 (cbPatch out))
              (cbPatch out s)
            else (t.updateSess s.bibKey s.dst4 (cbPatch out),
              cbPatch out s)).1.findSession
          (if ¬ out.has_stored = true
              then kill_stored (t.updateSess s.bibKey s.dst4 (cbPatch out))
                (cbPatch out s)
              else (t.updateSess s.bibKey s.dst4 (cbPatch out),
                cbPatch out s)).2.bibKey
          (if ¬ out.has_stored = true
              then kill_stored (t.updateSess s.bibKey s.dst4 (cbPatch out))
                (cbPatch out s)
              else (t.updateSess s.bibKey s.dst4 (cbPatch out),
                cbPatch out s)).2.dst4
          = some (if ¬ out.has_stored = true
              then kill_stored (t.updateSess s.bibKey s.dst4 (cbPatch out))
                (cbPatch out s)
              else (t.updateSess s.bibKey s.dst4 (cbPatch out),
                cbPatch out s)).2 ∧
        sessKeysUnique (if ¬ out.has_stored = true
            then kill_stored (t.updateSess s.bibKey s.dst4 (cbPatch out))
              (cbPatch out s)
            else (t.updateSess s.bibKey s.dst4 (cbPatch out),
              cbPatch out s)).1 ∧
        (if ¬ out.has_stored = true
            then kill_stored (t.updateSess s.bibKey s.dst4 (cbPatch out))
              (cbPatch out s)
            else (t.updateSess s.bibKey s.dst4 (cbPatch out),
              cbPatch out s)).1.pkt_count
          = storedTotal (if ¬ out.has_stored = true
              then kill_stored (t.updateSess s.bibKey s.dst4 (cbPatch out))
                (cbPatch out s)
              else (t.updateSess s.bibKey s.dst4 (cbPatch out),
                cbPatch out s)).1 ∧
        storedTotal (if ¬ out.has_stored = true
            then kill_stored (t.updateSess s.bibKey s.dst4 (cbPatch out))
              (cbPatch out s)
            else (t.updateSess s.bibKey s.dst4 (cbPatch out),
              cbPatch out s)).1 ≤ storedTotal t := by
      by_cases hhs : out.has_stored = true
      · rw [if_neg (by simp [hhs])]
        exact ⟨hfound1, huniq1, hacct1, le_of_eq hle1⟩
      · rw [if_pos (by simp [hhs])]
        obtain ⟨k1, k2, k3, k4, k5, k6, k7, k8⟩ :=
          kill_stored_spec (t.updateSess s.bibKey s.dst4 (cbPatch out))
            (cbPatch out s) hfound1 huniq1
        have hlen : (kill_stored (t.updateSess s.bibKey s.dst4 (cbPatch out))
            (cbPatch out s)).1.pkt_queue.length = t.pkt_queue.length := by
          rw [k3]
          rfl
        rw [hssc1] at k2
        refine ⟨by rw [k4, k5]; exact k7, k8, ?_, ?_⟩ <;>
          · unfold storedTotal at *
            cases hcs : (cbPatch out s).stored <;> rw [hcs] at k1 k2 <;>
              simp at k1 k2 <;> omega
    obtain ⟨C2, D2, A2, B2⟩ := bundle
    cases hfate : out.fate
    · exact fate_timer_acct_goal now t _ _ .est C2 D2 A2 B2
    · exact fate_timer_acct_goal now t _ _ .trans C2 D2 A2 B2
    · exact fate_probe_acct_goal now t _ _ C2 D2 A2 B2
    · exact fate_rm_acct_goal now t _ _ C2 D2 A2 B2
    · exact ⟨A2, B2⟩
    · exact ⟨A2, B2⟩
    · exact fate_slow_acct_goal now t _ _ _ C2 D2 A2 B2

/-- C5: the stored-packet budget of the TCP table. Under the accounting
invariant (pkt_count equals the number of type-1 queue nodes plus type-2
packets attached to sessions) and session-key uniqueness, bib_add_tcp4
keeps the accounting exact, never pushes the total beyond
max_stored_pkts, and — when the budget is already full — refuses to
store: the type-1 path fails with no-space / SO1_FULL and the type-2
path (ADF enabled) fails with no-space / SO2_FULL, both leaving the
table untouched. -/
theorem c5_stored_pkt_bound (g : GlobalsBib) (now : Nat) (t : BibTable)
    (tup : Tuple4) (dst6 : Addr6) (syn : Bool) (cb : Option (Session → CbOut))
    (hacct : t.pkt_count = storedTotal t)
    (huniq : sessKeysUnique t) :
    (bib_add_tcp4 g now t tup dst6 syn cb).table.pkt_count
      = storedTotal (bib_add_tcp4 g now t tup dst6 syn cb).table ∧
    (storedTotal t ≤ g.max_stored_pkts →
      storedTotal (bib_add_tcp4 g now t tup dst6 syn cb).table
        ≤ g.max_stored_pkts) ∧
    (g.max_stored_pkts ≤ storedTotal t →
      storedTotal (bib_add_tcp4 g now t tup dst6 syn cb).table
        ≤ storedTotal t) ∧
    (findBib4 t.bibs tup.dst4 = none → syn = true →
      g.drop_external_tcp = false → g.max_stored_pkts ≤ storedTotal t →
      bib_add_tcp4 g now t tup dst6 syn cb
        = ⟨t, EINVAL, some .SO1_FULL, none⟩) ∧
    (∀ b, findBib4 t.bibs tup.dst4 = some b →
      t.findSession b.src6 tup.src4 = none → syn = true →
      g.drop_external_tcp = false → g.drop_by_addr = true →
      g.max_stored_pkts ≤ storedTotal t →
      bib_add_tcp4 g now t tup dst6 syn cb
        = ⟨t, EINVAL, some .SO2_FULL, none⟩) := by
  cases hbib : findBib4 t.bibs tup.dst4 with
  | some b =>
    cases hsess : t.findSession b.src6 tup.src4 with
    | some s =>
        obtain ⟨hmem, hkb, hkd, hc1⟩ := findSessList_some hsess
        have hfound' : t.findSession s.bibKey s.dst4 = some s := by
          rw [hkb, hkd]
          exact hsess
        obtain ⟨dA, dB⟩ := decide_fate_acct now cb t s hfound' huniq hacct
        have hred : (bib_add_tcp4 g now t tup dst6 syn cb).table
            = (decide_fate now cb t s).1 := by
          simp only [bib_add_tcp4, hbib, hsess]
          split <;> rfl
        rw [hred]
        refine ⟨dA, fun h => le_trans dB h, fun _ => dB, ?_, ?_⟩
        · intro hc
          cases hc
        · intro b' hb' hs'
          injection hb' with hb'
          rw [← hb'] at hs'
          rw [hsess] at hs'
          cases hs'
    | none =>
      cases syn with
      | false =>
          have hred : bib_add_tcp4 g now t tup dst6 false cb
              = ⟨t, 0, none, some (.bibOnly b)⟩ := by
            simp [bib_add_tcp4, hbib, hsess]
          rw [hred]
          refine ⟨hacct, fun h => h, fun _ => le_refl _, ?_, ?_⟩
          · intro hc
            cases hc
          · intro b' hb' hs' hc
            cases hc
      | true =>
        cases hext : g.drop_external_tcp with
        | true =>
            have hred : bib_add_tcp4 g now t tup dst6 true cb
                = ⟨t, EPERM, some .EXTERNAL_SYN_PROHIBITED, none⟩ := by
              simp [bib_add_tcp4, hbib, hsess, hext]
            rw [hred]
            refine ⟨hacct, fun h => h, fun _ => le_refl _, ?_, ?_⟩
            · intro hc
              cases hc
            · intro b' hb' hs' _ hc
              cases hc
        | false =>
          cases hdba : g.drop_by_addr with
          | true =>
            by_cases hfull : g.max_stored_pkts ≤ t.pkt_count
            · have hred : bib_add_tcp4 g now t tup dst6 true cb
                  = ⟨t, EINVAL, some .SO2_FULL, none⟩ := by
                simp [bib_add_tcp4, hbib, hsess, hext, hdba, hfull]
              rw [hred]
              refine ⟨hacct, fun h => h, fun _ => le_refl _, ?_, ?_⟩
              · intro hc
                cases hc
              · intro b' hb' _ _ _ _ _
                rfl
            · have hred : bib_add_tcp4 g now t tup dst6 true cb
                  = { table := ((⟨t.bibs, t.estList, t.transList, t.syn4List,
                        t.session_count + 1, t.pkt_count + 1,
                        t.pkt_queue⟩ : BibTable).addTail
                        ⟨b.src6, dst6, tup.src4, .V4_INIT, now, true⟩ .syn4)
                      code := ESTOLEN
                      stat := some .SO2_STORED_PKT
                      result := some (.full (tstobsSnap b
                        ⟨b.src6, dst6, tup.src4, .V4_INIT, now, true⟩)) } := by
                simp [bib_add_tcp4, hbib, hsess, hext, hdba, hfull, attach_timer]
              rw [hred]
              have hssc := storedSessCount_addTail
                (⟨t.bibs, t.estList, t.transList, t.syn4List,
                  t.session_count + 1, t.pkt_count + 1, t.pkt_queue⟩ : BibTable)
                ⟨b.src6, dst6, tup.src4, .V4_INIT, now, true⟩ .syn4
              obtain ⟨hpk, hpq⟩ := addTail_pkt_fields
                (⟨t.bibs, t.estList, t.transList, t.syn4List,
                  t.session_count + 1, t.pkt_count + 1, t.pkt_queue⟩ : BibTable)
                ⟨b.src6, dst6, tup.src4, .V4_INIT, now, true⟩ .syn4
              have hqlen : ((⟨t.bibs, t.estList, t.transList, t.syn4List,
                  t.session_count + 1, t.pkt_count + 1,
                  t.pkt_queue⟩ : BibTable).addTail
                  ⟨b.src6, dst6, tup.src4, .V4_INIT, now, true⟩
                  .syn4).pkt_queue.length = t.pkt_queue.length := by
                rw [hpq]
              have hssc2 : storedSessCount
                  (⟨t.bibs, t.estList, t.transList, t.syn4List,
                    t.session_count + 1, t.pkt_count + 1,
                    t.pkt_queue⟩ : BibTable) = storedSessCount t := rfl
              rw [hssc2] at hssc
              unfold storedTotal at *
              simp only [hssc, hqlen, hpk]
              refine ⟨by simp <;> omega, fun h => by simp <;> omega,
                fun h => by omega, ?_, ?_⟩
              · intro hc
                cases hc
              · intro b' hb' _ _ _ _ hc
                omega
          | false =>
            have hred : bib_add_tcp4 g now t tup dst6 true cb
                = { table := ((⟨t.bibs, t.estList, t.transList, t.syn4List,
                      t.session_count + 1, t.pkt_count,
                      t.pkt_queue⟩ : BibTable).addTail
                      ⟨b.src6, dst6, tup.src4, .V4_INIT, now, false⟩ .trans)
                    code := 0
                    stat := none
                    result := some (.full (tstobsSnap b
                      ⟨b.src6, dst6, tup.src4, .V4_INIT, now, false⟩)) } := by
              simp [bib_add_tcp4, hbib, hsess, hext, hdba, attach_timer]
            rw [hred]
            have hssc := storedSessCount_addTail
              (⟨t.bibs, t.estList, t.transList, t.syn4List,
                t.session_count + 1, t.pkt_count, t.pkt_queue⟩ : BibTable)
              ⟨b.src6, dst6, tup.src4, .V4_INIT, now, false⟩ .trans
            obtain ⟨hpk, hpq⟩ := addTail_pkt_fields
              (⟨t.bibs, t.estList, t.transList, t.syn4List,
                t.session_count + 1, t.pkt_count, t.pkt_queue⟩ : BibTable)
              ⟨b.src6, dst6, tup.src4, .V4_INIT, now, false⟩ .trans
            have hqlen : ((⟨t.bibs, t.estList, t.transList, t.syn4List,
                t.session_count + 1, t.pkt_count, t.pkt_queue⟩ : BibTable).addTail
                ⟨b.src6, dst6, tup.src4, .V4_INIT, now, false⟩
                .trans).pkt_queue.length = t.pkt_queue.length := by
              rw [hpq]
            have hssc2 : storedSessCount
                (⟨t.bibs, t.estList, t.transList, t.syn4List,
                  t.session_count + 1, t.pkt_count, t.pkt_queue⟩ : BibTable)
                = storedSessCount t := rfl
            rw [hssc2] at hssc
            unfold storedTotal at *
            simp only [hssc, hqlen, hpk]
            refine ⟨by simp <;> omega, fun h => by simp <;> omega,
              fun h => by simp <;> omega, ?_, ?_⟩
            · intro hc
              cases hc
            · intro b' hb' _ _ _ hc
              cases hc
  | none =>
    cases syn with
    | false =>
        have hred : bib_add_tcp4 g now t tup dst6 false cb
            = ⟨t, EINVAL, some .NO_BIB, none⟩ := by
          simp [bib_add_tcp4, hbib]
        rw [hred]
        refine ⟨hacct, fun h => h, fun _ => le_refl _, ?_, ?_⟩
        · intro _ hc
          cases hc
        · intro b' hb'
          cases hb'
    | true =>
      cases hext : g.drop_external_tcp with
      | true =>
          have hred : bib_add_tcp4 g now t tup dst6 true cb
              = ⟨t, EPERM, some .EXTERNAL_SYN_PROHIBITED, none⟩ := by
            simp [bib_add_tcp4, hbib, hext]
          rw [hred]
          refine ⟨hacct, fun h => h, fun _ => le_refl _, ?_, ?_⟩
          · intro _ _ hc
            cases hc
          · intro b' hb'
            cases hb'
      | false =>
        by_cases hfull : g.max_stored_pkts ≤ t.pkt_count
        · have hred : bib_add_tcp4 g now t tup dst6 true cb
              = ⟨t, EINVAL, some .SO1_FULL, none⟩ := by
            simp [bib_add_tcp4, hbib, hext, pktqueue_add, hfull, ESTOLEN,
              EEXIST, ENOSPC]
          rw [hred]
          refine ⟨hacct, fun h => h, fun _ => le_refl _,
            fun _ _ _ _ => rfl, ?_⟩
          intro b' hb'
          cases hb'
        · by_cases hex : t.pkt_queue.any
              (fun x => decide (x = (⟨dst6, tup.src4, tup.dst4⟩ : PktNode))) = true
          · have hred : bib_add_tcp4 g now t tup dst6 true cb
                = ⟨t, EEXIST, some .SO1_EXISTS, none⟩ := by
              simp [bib_add_tcp4, hbib, hext, pktqueue_add, hfull, hex, ESTOLEN,
                EEXIST, ENOSPC]
            rw [hred]
            refine ⟨hacct, fun h => h, fun _ => le_refl _, ?_, ?_⟩
            · intro _ _ _ hc
              unfold storedTotal at hc hacct
              omega
            · intro b' hb'
              cases hb'
          · have hred : bib_add_tcp4 g now t tup dst6 true cb
                = { table := ⟨t.bibs, t.estList, t.transList, t.syn4List,
                      t.session_count,  t.pkt_count + 1,
                      t.pkt_queue ++ [⟨dst6, tup.src4, tup.dst4⟩]⟩
                    code := ESTOLEN
                    stat := some .SO1_STORED_PKT
                    result := none } := by
              simp [bib_add_tcp4, hbib, hext, pktqueue_add, hfull, hex, ESTOLEN,
                EEXIST, ENOSPC]
            rw [hred]
            unfold storedTotal at *
            have hssc3 : storedSessCount
                (⟨t.bibs, t.estList, t.transList, t.syn4List,
                  t.session_count, t.pkt_count + 1,
                  t.pkt_queue ++ [⟨dst6, tup.src4, tup.dst4⟩]⟩ : BibTable)
                = storedSessCount t := rfl
            rw [hssc3]
            simp only [List.length_append, List.length_cons, List.length_nil]
            refine ⟨by push_cast; omega, fun h => by push_cast; omega,
              fun h => by omega, ?_, ?_⟩
            · intro _ _ _ hc
              omega
            · intro b' hb'
              cases hb'

/-- A TCP table whose stored-packet budget (1) is already used by a
queued type-1 packet. -/
def tC5 : BibTable := ⟨[], [], [], [], 0, 1, [⟨⟨9, 9⟩, ⟨8, 8⟩, ⟨7, 7⟩⟩]⟩

/-- Witness for C5: at the budget, a v4 SYN with no BIB entry is refused
(no-space, SO1_FULL) instead of stored, and the accounting stays
exact. -/
theorem c5_stored_pkt_bound_witness :
    bib_add_tcp4 ⟨false, false, 1⟩ 5 tC5 ⟨⟨8, 8⟩, ⟨2, 2⟩, .tcp⟩ ⟨6, 6⟩ true none
      = ⟨tC5, EINVAL, some .SO1_FULL, none⟩ ∧
    (bib_add_tcp4 ⟨false, false, 1⟩ 5 tC5 ⟨⟨8, 8⟩, ⟨2, 2⟩, .tcp⟩ ⟨6, 6⟩
        true none).table.pkt_count
      = storedTotal (bib_add_tcp4 ⟨false, false, 1⟩ 5 tC5 ⟨⟨8, 8⟩, ⟨2, 2⟩, .tcp⟩
          ⟨6, 6⟩ true none).table := by
  have h := c5_stored_pkt_bound ⟨false, false, 1⟩ 5 tC5 ⟨⟨8, 8⟩, ⟨2, 2⟩, .tcp⟩
    ⟨6, 6⟩ true none (by decide)
    (by intro u hu; simp [tC5, BibTable.allSessions] at hu)
  exact ⟨h.2.2.2.1 (by decide) rfl rfl (by decide), h.1⟩

/-! ## Claim C6: expirer-list ordering -/

/-- An expirer list is sorted by update_time ascending. -/
def timeSorted (l : List Session) : Prop :=
  List.Pairwise (fun a b => a.update_time ≤ b.update_time) l

/-- All three expirer lists of the table are sorted. -/
def tableSorted (t : BibTable) : Prop :=
  timeSorted t.estList ∧ timeSorted t.transList ∧ timeSorted t.syn4List

/-- The clock bound: every tabled session was stamped no later than
now (jiffies is monotone). -/
def timesLE (t : BibTable) (now : Nat) : Prop :=
  ∀ u ∈ t.allSessions, u.update_time ≤ now

theorem timeSorted_eraseSessKey {l : List Session} (k : Addr6) (d : Addr4)
    (h : timeSorted l) : timeSorted (eraseSessKey l k d) :=
  List.Pairwise.sublist (eraseSessKey_sublist l k d) h

theorem timeSorted_append_singleton {l : List Session} {x : Session}
    (h : timeSorted l) (hb : ∀ u ∈ l, u.update_time ≤ x.update_time) :
    timeSorted (l ++ [x]) := by
  rw [timeSorted, List.pairwise_append]
  exact ⟨h, List.pairwise_singleton _ _, by
    intro a ha b hbmem
    rw [List.mem_singleton] at hbmem
    rw [hbmem]
    exact hb a ha⟩

theorem insRev_pairwise {s : Session} {l : List Session}
    (h : List.Pairwise (fun a b => b.update_time ≤ a.update_time) l) :
    List.Pairwise (fun a b => b.update_time ≤ a.update_time) (insRev s l) := by
  induction l with
  | nil => simp [insRev]
  | cons x xs ih =>
      rw [List.pairwise_cons] at h
      by_cases hx : x.update_time < s.update_time
      · rw [insRev, if_pos hx]
        rw [List.pairwise_cons]
        constructor
        · intro y hy
          rw [List.mem_cons] at hy
          rcases hy with rfl | hy
          · exact le_of_lt hx
          · exact le_trans (h.1 y hy) (le_of_lt hx)
        · rw [List.pairwise_cons]
          exact h
      · rw [insRev, if_neg hx]
        rw [List.pairwise_cons]
        constructor
        · intro y hy
          have := (insRev_perm s xs).mem_iff.mp hy
          rw [List.mem_cons] at this
          rcases this with rfl | hmem
          · exact Nat.le_of_not_lt hx
          · exact h.1 y hmem
        · exact ih h.2

theorem orderedInsert_sorted {s : Session} {l : List Session}
    (h : timeSorted l) : timeSorted (orderedInsert s l) := by
  unfold orderedInsert timeSorted
  rw [List.pairwise_reverse]
  apply insRev_pairwise
  exact List.pairwise_reverse.mpr h

theorem queue_unsorted_session_sorted (t : BibTable) (s : Session)
    (timer : TimerType) (rf : Bool) (h : tableSorted t) :
    tableSorted (queue_unsorted_session t s timer rf) := by
  obtain ⟨h1, h2, h3⟩ := h
  have he : tableSorted (if rf then t.eraseSess s.bibKey s.dst4 else t) := by
    cases rf
    · exact ⟨h1, h2, h3⟩
    · exact ⟨timeSorted_eraseSessKey _ _ h1, timeSorted_eraseSessKey _ _ h2,
        timeSorted_eraseSessKey _ _ h3⟩
  obtain ⟨e1, e2, e3⟩ := he
  cases timer <;>
    exact ⟨by first | exact orderedInsert_sorted e1 | exact e1,
      by first | exact orderedInsert_sorted e2 | exact e2,
      by first | exact orderedInsert_sorted e3 | exact e3⟩

theorem addTail_timerList (t : BibTable) (x : Session) (timer : TimerType) :
    (t.addTail x timer).timerList timer = t.timerList timer ++ [x] := by
  cases timer <;> rfl

theorem timesLE_mem {t : BibTable} {now : Nat} (h : timesLE t now)
    {u : Session} (hu : u ∈ t.allSessions) : u.update_time ≤ now := h u hu

theorem handle_fate_timer_sorted (now : Nat) (t : BibTable) (s : Session)
    (timer : TimerType) (hs : tableSorted t) (hle : timesLE t now) :
    tableSorted (handle_fate_timer now t s timer) ∧
    (handle_fate_timer now t s timer).timerList timer
      = (t.eraseSess s.bibKey s.dst4).timerList timer
        ++ [{ s with update_time := now }] := by
  obtain ⟨h1, h2, h3⟩ := hs
  have he1 := timeSorted_eraseSessKey s.bibKey s.dst4 h1
  have he2 := timeSorted_eraseSessKey s.bibKey s.dst4 h2
  have he3 := timeSorted_eraseSessKey s.bibKey s.dst4 h3
  have hb : ∀ (l : List Session),
      (∀ u ∈ l, u ∈ t.allSessions) →
      timeSorted l →
      timeSorted (l ++ [{ s with update_time := now }]) := by
    intro l hsub hsort
    exact timeSorted_append_singleton hsort (fun u hu => hle u (hsub u hu))
  have hmem1 : ∀ u ∈ eraseSessKey t.estList s.bibKey s.dst4, u ∈ t.allSessions := by
    intro u hu
    have := (eraseSessKey_sublist t.estList s.bibKey s.dst4).subset hu
    simp [BibTable.allSessions, this]
  have hmem2 : ∀ u ∈ eraseSessKey t.transList s.bibKey s.dst4, u ∈ t.allSessions := by
    intro u hu
    have := (eraseSessKey_sublist t.transList s.bibKey s.dst4).subset hu
    simp [BibTable.allSessions, this]
  have hmem3 : ∀ u ∈ eraseSessKey t.syn4List s.bibKey s.dst4, u ∈ t.allSessions := by
    intro u hu
    have := (eraseSessKey_sublist t.syn4List s.bibKey s.dst4).subset hu
    simp [BibTable.allSessions, this]
  unfold handle_fate_timer
  refine ⟨?_, addTail_timerList _ _ _⟩
  cases timer
  · exact ⟨hb _ hmem1 he1, he2, he3⟩
  · exact ⟨he1, hb _ hmem2 he2, he3⟩
  · exact ⟨he1, he2, hb _ hmem3 he3⟩

theorem mem_updateSessList_precise {y : Session} (f : Session → Session)
    {l : List Session} {k : Addr6} {d : Addr4}
    (h : y ∈ updateSessList f l k d) :
    y ∈ l ∨ ∃ u, findSessList l k d = some u ∧ y = f u := by
  induction l with
  | nil => simp [updateSessList] at h
  | cons v rest ih =>
      by_cases hm : v.bibKey = k ∧ v.dst4 = d
      · rw [updateSessList, if_pos hm] at h
        rw [List.mem_cons] at h
        rcases h with rfl | h
        · exact Or.inr ⟨v, by rw [findSessList, if_pos hm], rfl⟩
        · exact Or.inl (List.mem_cons_of_mem _ h)
      · rw [updateSessList, if_neg hm] at h
        rw [List.mem_cons] at h
        rcases h with rfl | h
        · exact Or.inl (List.mem_cons_self _ _)
        · rcases ih h with h | ⟨u, hu, hy⟩
          · exact Or.inl (List.mem_cons_of_mem _ h)
          · exact Or.inr ⟨u, by rw [findSessList, if_neg hm]; exact hu, hy⟩

theorem timeSorted_updateSessList (f : Session → Session)
    {l : List Session} {k : Addr6} {d : Addr4}
    (hf : ∀ u, findSessList l k d = some u →
      (f u).update_time = u.update_time)
    (h : timeSorted l) : timeSorted (updateSessList f l k d) := by
  induction l with
  | nil => exact h
  | cons v rest ih =>
      rw [timeSorted, List.pairwise_cons] at h
      by_cases hm : v.bibKey = k ∧ v.dst4 = d
      · rw [updateSessList, if_pos hm]
        rw [timeSorted, List.pairwise_cons]
        have hfv : (f v).update_time = v.update_time :=
          hf v (by rw [findSessList, if_pos hm])
        exact ⟨fun y hy => by rw [hfv]; exact h.1 y hy, h.2⟩
      · rw [updateSessList, if_neg hm]
        rw [timeSorted, List.pairwise_cons]
        have hfind : findSessList (v :: rest) k d = findSessList rest k d := by
          rw [findSessList, if_neg hm]
        refine ⟨?_, ih (fun u hu => hf u (by rw [hfind]; exact hu)) h.2⟩
        intro y hy
        rcases mem_updateSessList_precise f hy with hy | ⟨u, hu, rfl⟩
        · exact h.1 y hy
        · have hfu : (f u).update_time = u.update_time :=
            hf u (by rw [hfind]; exact hu)
          rw [hfu]
          exact h.1 u (findSessList_some hu).1

theorem kill_stored_sorted (t : BibTable) (s : Session)
    (h : tableSorted t) : tableSorted (kill_stored t s).1 := by
  unfold kill_stored
  split
  · exact ⟨timeSorted_updateSessList _ (fun u _ => rfl) h.1,
      timeSorted_updateSessList _ (fun u _ => rfl) h.2.1,
      timeSorted_updateSessList _ (fun u _ => rfl) h.2.2⟩
  · exact h

theorem eraseSessKey_kill (t : BibTable) (s : Session) (k : Addr6) (d : Addr4)
    (hk : s.bibKey = k) (hd : s.dst4 = d) :
    eraseSessKey (kill_stored t s).1.estList k d
        = eraseSessKey t.estList k d ∧
    eraseSessKey (kill_stored t s).1.transList k d
        = eraseSessKey t.transList k d ∧
    eraseSessKey (kill_stored t s).1.syn4List k d
        = eraseSessKey t.syn4List k d := by
  subst hk hd
  have hkF : ∀ u : Session,
      ({ u with stored := false } : Session).bibKey = u.bibKey ∧
      ({ u with stored := false } : Session).dst4 = u.dst4 :=
    fun u => ⟨rfl, rfl⟩
  unfold kill_stored
  split
  · exact ⟨eraseSessKey_updateSessList _ hkF _ _ _,
      eraseSessKey_updateSessList _ hkF _ _ _,
      eraseSessKey_updateSessList _ hkF _ _ _⟩
  · exact ⟨rfl, rfl, rfl⟩

theorem rm_lists (t : BibTable) (s : Session) :
    (rm t s).estList
        = eraseSessKey (kill_stored t s).1.estList s.bibKey s.dst4 ∧
    (rm t s).transList
        = eraseSessKey (kill_stored t s).1.transList s.bibKey s.dst4 ∧
    (rm t s).syn4List
        = eraseSessKey (kill_stored t s).1.syn4List s.bibKey s.dst4 := by
  unfold rm
  simp only []
  split
  · exact ⟨rfl, rfl, rfl⟩
  · split <;> exact ⟨rfl, rfl, rfl⟩

theorem kill_stored_keys (t : BibTable) (s : Session) :
    (kill_stored t s).2.bibKey = s.bibKey ∧
    (kill_stored t s).2.dst4 = s.dst4 := by
  unfold kill_stored
  split
  · exact ⟨rfl, rfl⟩
  · exact ⟨rfl, rfl⟩

/-- The table/session pair right after decide_fate has copied the
callback output back and (when the copy lost its packet) killed the
stored packet — the state every fate is applied to. -/
def df2 (out : CbOut) (t : BibTable) (s : Session) : BibTable × Session :=
  if ¬ out.has_stored then
    kill_stored (t.updateSess s.bibKey s.dst4 (cbPatch out)) (cbPatch out s)
  else (t.updateSess s.bibKey s.dst4 (cbPatch out), cbPatch out s)

theorem df2_keys (out : CbOut) (t : BibTable) (s : Session) :
    (df2 out t s).2.bibKey = s.bibKey ∧ (df2 out t s).2.dst4 = s.dst4 := by
  unfold df2
  split
  · exact kill_stored_keys _ _
  · exact ⟨rfl, rfl⟩

theorem df2_erase (out : CbOut) (t : BibTable) (s : Session) :
    eraseSessKey (df2 out t s).1.estList s.bibKey s.dst4
        = eraseSessKey t.estList s.bibKey s.dst4 ∧
    eraseSessKey (df2 out t s).1.transList s.bibKey s.dst4
        = eraseSessKey t.transList s.bibKey s.dst4 ∧
    eraseSessKey (df2 out t s).1.syn4List s.bibKey s.dst4
        = eraseSessKey t.syn4List s.bibKey s.dst4 := by
  have hk1 : ∀ u : Session,
      (cbPatch out u).bibKey = u.bibKey ∧ (cbPatch out u).dst4 = u.dst4 :=
    fun u => ⟨rfl, rfl⟩
  have hU1 : eraseSessKey
        (t.updateSess s.bibKey s.dst4 (cbPatch out)).estList s.bibKey s.dst4
      = eraseSessKey t.estList s.bibKey s.dst4 :=
    eraseSessKey_updateSessList _ hk1 _ _ _
  have hU2 : eraseSessKey
        (t.updateSess s.bibKey s.dst4 (cbPatch out)).transList s.bibKey s.dst4
      = eraseSessKey t.transList s.bibKey s.dst4 :=
    eraseSessKey_updateSessList _ hk1 _ _ _
  have hU3 : eraseSessKey
        (t.updateSess s.bibKey s.dst4 (cbPatch out)).syn4List s.bibKey s.dst4
      = eraseSessKey t.syn4List s.bibKey s.dst4 :=
    eraseSessKey_updateSessList _ hk1 _ _ _
  have hkill := eraseSessKey_kill
    (t.updateSess s.bibKey s.dst4 (cbPatch out)) (cbPatch out s)
    s.bibKey s.dst4 rfl rfl
  unfold df2
  split
  · exact ⟨hkill.1.trans hU1, hkill.2.1.trans hU2, hkill.2.2.trans hU3⟩
  · exact ⟨hU1, hU2, hU3⟩

theorem attach_timer_sorted (now : Nat) (t : BibTable) (s : Session)
    (timer : TimerType) (hsort : tableSorted t) (hle : timesLE t now) :
    tableSorted (attach_timer now t s timer) ∧
    (attach_timer now t s timer).timerList timer
      = t.timerList timer ++ [{ s with update_time := now }] := by
  obtain ⟨h1, h2, h3⟩ := hsort
  have a1 : timeSorted (t.estList ++ [{ s with update_time := now }]) :=
    timeSorted_append_singleton h1
      (fun u hu => hle u (by simp [BibTable.allSessions, hu]))
  have a2 : timeSorted (t.transList ++ [{ s with update_time := now }]) :=
    timeSorted_append_singleton h2
      (fun u hu => hle u (by simp [BibTable.allSessions, hu]))
  have a3 : timeSorted (t.syn4List ++ [{ s with update_time := now }]) :=
    timeSorted_append_singleton h3
      (fun u hu => hle u (by simp [BibTable.allSessions, hu]))
  unfold attach_timer
  refine ⟨?_, addTail_timerList _ _ _⟩
  cases timer
  · exact ⟨a1, h2, h3⟩
  · exact ⟨h1, a2, h3⟩
  · exact ⟨h1, h2, a3⟩

theorem fate_timer_sorted_goal (now : Nat) (t t2 : BibTable) (s2 : Session)
    (timer : TimerType) (k : Addr6) (d : Addr4)
    (he1 : eraseSessKey t2.estList s2.bibKey s2.dst4
      = eraseSessKey t.estList k d)
    (he2 : eraseSessKey t2.transList s2.bibKey s2.dst4
      = eraseSessKey t.transList k d)
    (he3 : eraseSessKey t2.syn4List s2.bibKey s2.dst4
      = eraseSessKey t.syn4List k d)
    (hsort : tableSorted t) (hle : timesLE t now) :
    tableSorted (handle_fate_timer now t2 s2 timer) := by
  obtain ⟨h1, h2, h3⟩ := hsort
  have g1 : timeSorted (eraseSessKey t2.estList s2.bibKey s2.dst4) := by
    rw [he1]
    exact timeSorted_eraseSessKey _ _ h1
  have g2 : timeSorted (eraseSessKey t2.transList s2.bibKey s2.dst4) := by
    rw [he2]
    exact timeSorted_eraseSessKey _ _ h2
  have g3 : timeSorted (eraseSessKey t2.syn4List s2.bibKey s2.dst4) := by
    rw [he3]
    exact timeSorted_eraseSessKey _ _ h3
  have a1 : timeSorted (eraseSessKey t2.estList s2.bibKey s2.dst4
      ++ [{ s2 with update_time := now }]) := by
    refine timeSorted_append_singleton g1 (fun u hu => ?_)
    rw [he1] at hu
    have := (eraseSessKey_sublist t.estList k d).subset hu
    exact hle u (by simp [BibTable.allSessions, this])
  have a2 : timeSorted (eraseSessKey t2.transList s2.bibKey s2.dst4
      ++ [{ s2 with update_time := now }]) := by
    refine timeSorted_append_singleton g2 (fun u hu => ?_)
    rw [he2] at hu
    have := (eraseSessKey_sublist t.transList k d).subset hu
    exact hle u (by simp [BibTable.allSessions, this])
  have a3 : timeSorted (eraseSessKey t2.syn4List s2.bibKey s2.dst4
      ++ [{ s2 with update_time := now }]) := by
    refine timeSorted_append_singleton g3 (fun u hu => ?_)
    rw [he3] at hu
    have := (eraseSessKey_sublist t.syn4List k d).subset hu
    exact hle u (by simp [BibTable.allSessions, this])
  unfold handle_fate_timer
  cases timer
  · exact ⟨a1, g2, g3⟩
  · exact ⟨g1, a2, g3⟩
  · exact ⟨g1, g2, a3⟩

theorem fate_probe_sorted_goal (now : Nat) (t t2 : BibTable) (s2 : Session)
    (k : Addr6) (d : Addr4)
    (he1 : eraseSessKey t2.estList s2.bibKey s2.dst4
      = eraseSessKey t.estList k d)
    (he2 : eraseSessKey t2.transList s2.bibKey s2.dst4
      = eraseSessKey t.transList k d)
    (he3 : eraseSessKey t2.syn4List s2.bibKey s2.dst4
      = eraseSessKey t.syn4List k d)
    (hsort : tableSorted t) (hle : timesLE t now) :
    tableSorted (handle_fate_timer now
      (kill_stored t2 s2).1 (kill_stored t2 s2).2 .trans) := by
  have hk := kill_stored_keys t2 s2
  have he := eraseSessKey_kill t2 s2 s2.bibKey s2.dst4 rfl rfl
  exact fate_timer_sorted_goal now t _ _ .trans k d
    (by rw [hk.1, hk.2, he.1]; exact he1)
    (by rw [hk.1, hk.2, he.2.1]; exact he2)
    (by rw [hk.1, hk.2, he.2.2]; exact he3)
    ⟨(fun h => h) hsort.1, hsort.2.1, hsort.2.2⟩ hle

theorem fate_rm_sorted_goal (t t2 : BibTable) (s2 : Session)
    (k : Addr6) (d : Addr4)
    (he1 : eraseSessKey t2.estList s2.bibKey s2.dst4
      = eraseSessKey t.estList k d)
    (he2 : eraseSessKey t2.transList s2.bibKey s2.dst4
      = eraseSessKey t.transList k d)
    (he3 : eraseSessKey t2.syn4List s2.bibKey s2.dst4
      = eraseSessKey t.syn4List k d)
    (hsort : tableSorted t) :
    tableSorted (rm t2 s2) := by
  obtain ⟨h1, h2, h3⟩ := hsort
  obtain ⟨r1, r2, r3⟩ := rm_lists t2 s2
  have he := eraseSessKey_kill t2 s2 s2.bibKey s2.dst4 rfl rfl
  refine ⟨?_, ?_, ?_⟩
  · rw [timeSorted, r1, he.1, he1]
    exact timeSorted_eraseSessKey _ _ h1
  · rw [timeSorted, r2, he.2.1, he2]
    exact timeSorted_eraseSessKey _ _ h2
  · rw [timeSorted, r3, he.2.2, he3]
    exact timeSorted_eraseSessKey _ _ h3

theorem fate_slow_sorted_goal (t t2 : BibTable) (s2 : Session)
    (tm : TimerType) (k : Addr6) (d : Addr4)
    (he1 : eraseSessKey t2.estList s2.bibKey s2.dst4
      = eraseSessKey t.estList k d)
    (he2 : eraseSessKey t2.transList s2.bibKey s2.dst4
      = eraseSessKey t.transList k d)
    (he3 : eraseSessKey t2.syn4List s2.bibKey s2.dst4
      = eraseSessKey t.syn4List k d)
    (hsort : tableSorted t) :
    tableSorted (queue_unsorted_session t2 s2 tm true) := by
  obtain ⟨h1, h2, h3⟩ := hsort
  have g1 : timeSorted (eraseSessKey t2.estList s2.bibKey s2.dst4) := by
    rw [he1]
    exact timeSorted_eraseSessKey _ _ h1
  have g2 : timeSorted (eraseSessKey t2.transList s2.bibKey s2.dst4) := by
    rw [he2]
    exact timeSorted_eraseSessKey _ _ h2
  have g3 : timeSorted (eraseSessKey t2.syn4List s2.bibKey s2.dst4) := by
    rw [he3]
    exact timeSorted_eraseSessKey _ _ h3
  unfold queue_unsorted_session
  cases tm
  · exact ⟨orderedInsert_sorted g1, g2, g3⟩
  · exact ⟨g1, orderedInsert_sorted g2, g3⟩
  · exact ⟨g1, g2, orderedInsert_sorted g3⟩

theorem decide_fate_sorted (now : Nat) (cb : Option (Session → CbOut))
    (t : BibTable) (s : Session)
    (hfound : t.findSession s.bibKey s.dst4 = some s)
    (huniq : sessKeysUnique t)
    (hsort : tableSorted t) (hle : timesLE t now)
    (hcb : ∀ c, cb = some c →
      ((c s).fate = Fate.preserve ∨ (c s).fate = Fate.drop) →
      (c s).update_time = s.update_time) :
    tableSorted (decide_fate now cb t s).1 := by
  cases cb with
  | none => exact hsort
  | some c =>
    have hcb' := hcb c rfl
    simp only [decide_fate]
    generalize hg : c s = out
    rw [hg] at hcb'
    have hkeys := df2_keys out t s
    have herase := df2_erase out t s
    have hE1 : eraseSessKey (df2 out t s).1.estList
        (df2 out t s).2.bibKey (df2 out t s).2.dst4
        = eraseSessKey t.estList s.bibKey s.dst4 := by
      rw [hkeys.1, hkeys.2]
      exact herase.1
    have hE2 : eraseSessKey (df2 out t s).1.transList
        (df2 out t s).2.bibKey (df2 out t s).2.dst4
        = eraseSessKey t.transList s.bibKey s.dst4 := by
      rw [hkeys.1, hkeys.2]
      exact herase.2.1
    have hE3 : eraseSessKey (df2 out t s).1.syn4List
        (df2 out t s).2.bibKey (df2 out t s).2.dst4
        = eraseSessKey t.syn4List s.bibKey s.dst4 := by
      rw [hkeys.1, hkeys.2]
      exact herase.2.2
    have hmem_s : s ∈ t.allSessions := (findSessList_some hfound).1
    have hcnt : t.allSessions.countP (sameKey s.bibKey s.dst4) ≤ 1 :=
      huniq s hmem_s
    have hps : (out.fate = Fate.preserve ∨ out.fate = Fate.drop) →
        tableSorted (df2 out t s).1 := by
      intro hf
      have hupd : out.update_time = s.update_time := hcb' hf
      have hUsort : tableSorted
          (t.updateSess s.bibKey s.dst4 (cbPatch out)) := by
        rcases findSession_locate hfound hcnt with
          ⟨ha, hb1, hb2⟩ | ⟨hb1, ha, hb2⟩ | ⟨hb1, hb2, ha⟩
        · exact ⟨by
            show timeSorted
              (updateSessList (cbPatch out) t.estList s.bibKey s.dst4)
            exact timeSorted_updateSessList _
              (fun u hu => by
                rw [ha] at hu
                injection hu with hu
                rw [← hu]
                exact hupd) hsort.1,
            by
              show timeSorted
                (updateSessList (cbPatch out) t.transList s.bibKey s.dst4)
              rw [updateSessList_no_match _ hb1]
              exact hsort.2.1,
            by
              show timeSorted
                (updateSessList (cbPatch out) t.syn4List s.bibKey s.dst4)
              rw [updateSessList_no_match _ hb2]
              exact hsort.2.2⟩
        · exact ⟨by
            show timeSorted
              (updateSessList (cbPatch out) t.estList s.bibKey s.dst4)
            rw [updateSessList_no_match _ hb1]
            exact hsort.1,
            by
              show timeSorted
                (updateSessList (cbPatch out) t.transList s.bibKey s.dst4)
              exact timeSorted_updateSessList _
                (fun u hu => by
                  rw [ha] at hu
                  injection hu with hu
                  rw [← hu]
                  exact hupd) hsort.2.1,
            by
              show timeSorted
                (updateSessList (cbPatch out) t.syn4List s.bibKey s.dst4)
              rw [updateSessList_no_match _ hb2]
              exact hsort.2.2⟩
        · exact ⟨by
            show timeSorted
              (updateSessList (cbPatch out) t.estList s.bibKey s.dst4)
            rw [updateSessList_no_match _ hb1]
            exact hsort.1,
            by
              show timeSorted
                (updateSessList (cbPatch out) t.transList s.bibKey s.dst4)
              rw [updateSessList_no_match _ hb2]
              exact hsort.2.1,
            by
              show timeSorted
                (updateSessList (cbPatch out) t.syn4List s.bibKey s.dst4)
              exact timeSorted_updateSessList _
                (fun u hu => by
                  rw [ha] at hu
                  injection hu with hu
                  rw [← hu]
                  exact hupd) hsort.2.2⟩
      unfold df2
      split
      · exact kill_stored_sorted _ _ hUsort
      · exact hUsort
    cases hfate : out.fate
    · exact fate_timer_sorted_goal now t (df2 out t s).1 (df2 out t s).2
        .est s.bibKey s.dst4 hE1 hE2 hE3 ⟨hsort.1, hsort.2.1, hsort.2.2⟩ hle
    · exact fate_timer_sorted_goal now t (df2 out t s).1 (df2 out t s).2
        .trans s.bibKey s.dst4 hE1 hE2 hE3 ⟨hsort.1, hsort.2.1, hsort.2.2⟩ hle
    · exact fate_probe_sorted_goal now t (df2 out t s).1 (df2 out t s).2
        s.bibKey s.dst4 hE1 hE2 hE3 ⟨hsort.1, hsort.2.1, hsort.2.2⟩ hle
    · exact fate_rm_sorted_goal t (df2 out t s).1 (df2 out t s).2
        s.bibKey s.dst4 hE1 hE2 hE3 ⟨hsort.1, hsort.2.1, hsort.2.2⟩
    · exact hps (Or.inl hfate)
    · exact hps (Or.inr hfate)
    · exact fate_slow_sorted_goal t (df2 out t s).1 (df2 out t s).2
        out.timer_type s.bibKey s.dst4 hE1 hE2 hE3
        ⟨hsort.1, hsort.2.1, hsort.2.2⟩

/-- C6: the expirer-list ordering invariant. Every expirer list stays
sorted by update_time ascending: (1) handle_fate_timer (the relinking
fates) refreshes update_time to the current jiffies and re-links the
session at the tail of its (possibly new) expirer list, preserving
sortedness whenever the clock is monotone (no tabled stamp exceeds now);
(2) attach_timer does the same for a freshly created session; (3)
queue_unsorted_session — the TIMER_SLOW fate — inserts the session into
its target list in update_time order, preserving sortedness
unconditionally; (4) decide_fate as a whole preserves the invariant for
a tabled session, given key uniqueness and that the callback leaves
update_time alone when it answers FATE_PRESERVE or FATE_DROP (those two
fates are the only ones that skip the re-link). -/
theorem c6_expirer_sorted :
    (∀ (now : Nat) (t : BibTable) (s : Session) (timer : TimerType),
      tableSorted t → timesLE t now →
      tableSorted (handle_fate_timer now t s timer) ∧
      (handle_fate_timer now t s timer).timerList timer
        = (t.eraseSess s.bibKey s.dst4).timerList timer
          ++ [{ s with update_time := now }]) ∧
    (∀ (now : Nat) (t : BibTable) (s : Session) (timer : TimerType),
      tableSorted t → timesLE t now →
      tableSorted (attach_timer now t s timer) ∧
      (attach_timer now t s timer).timerList timer
        = t.timerList timer ++ [{ s with update_time := now }]) ∧
    (∀ (t : BibTable) (s : Session) (timer : TimerType) (rf : Bool),
      tableSorted t → tableSorted (queue_unsorted_session t s timer rf)) ∧
    (∀ (now : Nat) (cb : Option (Session → CbOut)) (t : BibTable)
        (s : Session),
      t.findSession s.bibKey s.dst4 = some s →
      sessKeysUnique t →
      tableSorted t → timesLE t now →
      (∀ c, cb = some c →
        ((c s).fate = Fate.preserve ∨ (c s).fate = Fate.drop) →
        (c s).update_time = s.update_time) →
      tableSorted (decide_fate now cb t s).1) :=
  ⟨fun now t s timer hs hle => handle_fate_timer_sorted now t s timer hs hle,
   fun now t s timer hs hle => attach_timer_sorted now t s timer hs hle,
   fun t s timer rf h => queue_unsorted_session_sorted t s timer rf h,
   fun now cb t s hfound huniq hs hle hcb =>
     decide_fate_sorted now cb t s hfound huniq hs hle hcb⟩

def sC6a : Session := ⟨⟨1, 1⟩, ⟨2, 2⟩, ⟨3, 3⟩, .ESTABLISHED, 1, false⟩

def sC6b : Session := ⟨⟨4, 4⟩, ⟨2, 2⟩, ⟨3, 3⟩, .ESTABLISHED, 2, false⟩

def sC6c : Session := ⟨⟨5, 5⟩, ⟨2, 2⟩, ⟨3, 3⟩, .TRANS, 2, false⟩

def tC6 : BibTable := ⟨[], [sC6a, sC6b], [], [], 2, 0, []⟩

def cbC6 : Session → CbOut := fun u => ⟨Fate.preserve, u.tcpState, u.update_time, true, .est⟩

theorem c6_expirer_sorted_witness :
    tableSorted (handle_fate_timer 5 tC6 sC6a .est) ∧
    (handle_fate_timer 5 tC6 sC6a .est).timerList .est
      = (tC6.eraseSess sC6a.bibKey sC6a.dst4).timerList .est
        ++ [{ sC6a with update_time := 5 }] ∧
    tableSorted (attach_timer 5 tC6 sC6c .trans) ∧
    tableSorted (queue_unsorted_session tC6 sC6c .trans false) ∧
    tableSorted (decide_fate 5 (some cbC6) tC6 sC6a).1 := by
  have hsort : tableSorted tC6 := by
    unfold tableSorted timeSorted
    decide
  have hle : timesLE tC6 5 := by
    unfold timesLE
    decide
  have H := c6_expirer_sorted
  refine ⟨(H.1 5 tC6 sC6a .est hsort hle).1,
    (H.1 5 tC6 sC6a .est hsort hle).2,
    (H.2.1 5 tC6 sC6c .trans hsort hle).1,
    H.2.2.1 tC6 sC6c .trans false hsort,
    H.2.2.2 5 (some cbC6) tC6 sC6a (by decide) (by unfold sessKeysUnique; decide)
      hsort hle ?_⟩
  intro c hc hf
  cases hc
  rfl
